import Mathlib

/-!
# User registry (`src/example.go`)

A shallow embedding of the in-memory user registry (`UserService`) and of the
HTTP handler in front of it (`UserHandler`), followed by the properties of the
registry that the specification states.

Conventions of the embedding:

* Go's `int` is a 64-bit two's-complement integer.  It is embedded as `Int`,
  and the one arithmetic operation of the program (`s.nextID++`) wraps around
  through `wrapInt`.
* `time.Now()` is an input of `CreateUser`: the clock reading is passed as an
  argument.
* A method with a pointer receiver becomes a function that takes the service
  and returns the service afterwards next to its Go result.
* A Go `error` is an `Option String` holding the message (`none` is `nil`).
* Library functions (`strconv.Atoi`, the JSON decoder) are parameters,
  collected in `Lib`.
-/

namespace UserRegistry

/-! ## Data model -/

/-- A `time.Time` value: an instant, kept abstract as an integer. -/
abbrev Time := Int

/-- The `User` struct. -/
structure User where
  ID : Int
  Name : String
  Email : String
  CreatedAt : Time
  Active : Bool
deriving DecidableEq

/-- The `UserService` struct: the record collection and the next id to assign. -/
structure UserService where
  users : List User
  nextID : Int
deriving DecidableEq

/-- Two's-complement wrap-around of a 64-bit Go `int`. -/
def wrapInt (x : Int) : Int :=
  (x + 9223372036854775808) % 18446744073709551616 - 9223372036854775808

/-- The text `fmt.Errorf("user with ID %d not found", id)` produces. -/
def notFound (id : Int) : String :=
  "user with ID " ++ toString id ++ " not found"

/-! ## Registry operations -/

/-- `NewUserService`: an empty collection, `nextID` 1. -/
def NewUserService : UserService :=
  { users := [], nextID := 1 }

/-- `CreateUser`: build the record with the current `nextID`, append it,
increment `nextID`, return (a pointer to) the local record. -/
def CreateUser (s : UserService) (name email : String) (now : Time) : User × UserService :=
  let user : User :=
    { ID := s.nextID, Name := name, Email := email, CreatedAt := now, Active := true }
  (user, { users := s.users ++ [user], nextID := wrapInt (s.nextID + 1) })

/-- The loop of `GetUser`: the first record whose `ID` is `id`. -/
def scanGet (id : Int) : List User → Option User
  | [] => none
  | user :: rest => if user.ID = id then some user else scanGet id rest

/-- `GetUser`: (a pointer to a copy of) the first record with that id and a
`nil` error, or a `nil` pointer and the not-found error. -/
def GetUser (s : UserService) (id : Int) : Option User × Option String :=
  match scanGet id s.users with
  | some user => (some user, none)
  | none => (none, some (notFound id))

/-- `GetAllUsers`: the collection as it is. -/
def GetAllUsers (s : UserService) : List User :=
  s.users

/-- The loop of `UpdateUser`: overwrite `Name` and `Email` of the first record
whose `ID` is `id`; `none` when the loop ends without a match. -/
def scanUpdate (id : Int) (name email : String) : List User → Option (List User)
  | [] => none
  | user :: rest =>
    if user.ID = id then some ({ user with Name := name, Email := email } :: rest)
    else (scanUpdate id name email rest).map (fun rest' => user :: rest')

/-- `UpdateUser`: the error returned and the service afterwards. -/
def UpdateUser (s : UserService) (id : Int) (name email : String) :
    Option String × UserService :=
  match scanUpdate id name email s.users with
  | some users' => (none, { s with users := users' })
  | none => (some (notFound id), s)

/-- The loop of `DeactivateUser`: clear `Active` of the first record whose `ID`
is `id`; `none` when the loop ends without a match. -/
def scanDeactivate (id : Int) : List User → Option (List User)
  | [] => none
  | user :: rest =>
    if user.ID = id then some ({ user with Active := false } :: rest)
    else (scanDeactivate id rest).map (fun rest' => user :: rest')

/-- `DeactivateUser`: the error returned and the service afterwards. -/
def DeactivateUser (s : UserService) (id : Int) : Option String × UserService :=
  match scanDeactivate id s.users with
  | some users' => (none, { s with users := users' })
  | none => (some (notFound id), s)

/-! ## Sequences of registry operations -/

/-- One call on the registry, with its arguments. -/
inductive Op where
  | create (name email : String) (now : Time)
  | get (id : Int)
  | getAll
  | update (id : Int) (name email : String)
  | deactivate (id : Int)
deriving DecidableEq

/-- The service after one call, and the record the call returned when the call
is `CreateUser`. -/
def applyOp (s : UserService) : Op → UserService × Option User
  | .create name email now => ((CreateUser s name email now).2, some (CreateUser s name email now).1)
  | .get _ => (s, none)
  | .getAll => (s, none)
  | .update id name email => ((UpdateUser s id name email).2, none)
  | .deactivate id => ((DeactivateUser s id).2, none)

/-- Run the calls in order from `s`: the service at the end and the records
returned by the `CreateUser` calls, in call order. -/
def runOps (s : UserService) : List Op → UserService × List User
  | [] => (s, [])
  | op :: ops =>
    ((runOps (applyOp s op).1 ops).1, (applyOp s op).2.toList ++ (runOps (applyOp s op).1 ops).2)

/-- The number of `CreateUser` calls in a sequence. -/
def countCreates : List Op → Nat
  | [] => 0
  | .create _ _ _ :: ops => countCreates ops + 1
  | _ :: ops => countCreates ops

/-- The ids held by the records of the collection, in order. -/
def ids (s : UserService) : List Int :=
  s.users.map (fun u => u.ID)

/-- The counter has not overflowed: `nextID`, one more than the number of
records, is still a value of a 64-bit `int`. -/
def NoOverflow (s : UserService) : Prop :=
  (s.users.length : Int) + 1 < 9223372036854775808

instance (s : UserService) : Decidable (NoOverflow s) := by
  unfold NoOverflow; infer_instance

/-- The counter invariant: `nextID` and the ids held are the wrapped successors
of the positions. -/
def CounterInv (s : UserService) : Prop :=
  s.nextID = wrapInt ((s.users.length : Int) + 1) ∧
    ids s = (List.range s.users.length).map (fun (i : Nat) => wrapInt ((i : Int) + 1))

/-! ## The HTTP handler -/

/-- The library functions the handler calls on request data. -/
structure Lib where
  /-- The function `strconv.Atoi`; `none` when it returns an error. -/
  Atoi : String → Option Int
  /-- The call `json.NewDecoder(r.Body).Decode(&req)` on a zeroed `req`: the
  fields `(req.Name, req.Email)` afterwards; `none` when it returns an error. -/
  Decode : String → Option (String × String)

/-- The parts of `http.Request` the handler reads: the method, the parsed query
string (`r.URL.Query()`, keys with their values in order) and the body. -/
structure Request where
  Method : String
  Query : List (String × String)
  Body : String

/-- The call `r.URL.Query().Get(key)`: the first value of `key`, or `""`. -/
def queryGet (key : String) : List (String × String) → String
  | [] => ""
  | (k, v) :: rest => if k = key then v else queryGet key rest

/-- What the handler writes as the response body. -/
inductive Payload where
  /-- The message of `http.Error(w, msg, code)`. -/
  | error (msg : String)
  /-- The text of `fmt.Fprint(w, msg)`. -/
  | text (msg : String)
  /-- The value of `json.NewEncoder(w).Encode(user)`, `user` a `*User`. -/
  | user (u : Option User)
  /-- The list of `json.NewEncoder(w).Encode(users)`. -/
  | users (us : List User)
deriving DecidableEq

/-- The response: the status code and the body. -/
structure Response where
  Status : Nat
  Body : Payload
deriving DecidableEq

def StatusOK : Nat := 200
def StatusCreated : Nat := 201
def StatusBadRequest : Nat := 400
def StatusNotFound : Nat := 404
def StatusMethodNotAllowed : Nat := 405

def MethodGet : String := "GET"
def MethodPost : String := "POST"
def MethodPut : String := "PUT"
def MethodDelete : String := "DELETE"

/-- `handleGetUsers`: one record when the `id` parameter is non-empty, the
whole list otherwise.  No `WriteHeader` call: the status is the default 200. -/
def handleGetUsers (lib : Lib) (s : UserService) (r : Request) : Response × UserService :=
  let idParam := queryGet "id" r.Query
  if idParam ≠ "" then
    match lib.Atoi idParam with
    | none => ({ Status := StatusBadRequest, Body := .error "Invalid user ID" }, s)
    | some id =>
      match GetUser s id with
      | (_, some err) => ({ Status := StatusNotFound, Body := .error err }, s)
      | (user, none) => ({ Status := StatusOK, Body := .user user }, s)
  else
    ({ Status := StatusOK, Body := .users (GetAllUsers s) }, s)

/-- `handleCreateUser`: decode, require both fields non-empty, create. -/
def handleCreateUser (lib : Lib) (now : Time) (s : UserService) (r : Request) :
    Response × UserService :=
  match lib.Decode r.Body with
  | none => ({ Status := StatusBadRequest, Body := .error "Invalid JSON" }, s)
  | some (name, email) =>
    if name = "" ∨ email = "" then
      ({ Status := StatusBadRequest, Body := .error "Name and email are required" }, s)
    else
      ({ Status := StatusCreated, Body := .user (some (CreateUser s name email now).1) },
        (CreateUser s name email now).2)

/-- `handleUpdateUser`: id parameter, integer, decode, update. -/
def handleUpdateUser (lib : Lib) (s : UserService) (r : Request) : Response × UserService :=
  let idParam := queryGet "id" r.Query
  if idParam = "" then
    ({ Status := StatusBadRequest, Body := .error "User ID is required" }, s)
  else
    match lib.Atoi idParam with
    | none => ({ Status := StatusBadRequest, Body := .error "Invalid user ID" }, s)
    | some id =>
      match lib.Decode r.Body with
      | none => ({ Status := StatusBadRequest, Body := .error "Invalid JSON" }, s)
      | some (name, email) =>
        match UpdateUser s id name email with
        | (some err, s') => ({ Status := StatusNotFound, Body := .error err }, s')
        | (none, s') => ({ Status := StatusOK, Body := .text "User updated successfully" }, s')

/-- `handleDeactivateUser`: id parameter, integer, deactivate. -/
def handleDeactivateUser (lib : Lib) (s : UserService) (r : Request) :
    Response × UserService :=
  let idParam := queryGet "id" r.Query
  if idParam = "" then
    ({ Status := StatusBadRequest, Body := .error "User ID is required" }, s)
  else
    match lib.Atoi idParam with
    | none => ({ Status := StatusBadRequest, Body := .error "Invalid user ID" }, s)
    | some id =>
      match DeactivateUser s id with
      | (some err, s') => ({ Status := StatusNotFound, Body := .error err }, s')
      | (none, s') =>
        ({ Status := StatusOK, Body := .text "User deactivated successfully" }, s')

/-- `ServeHTTP`: dispatch on the method. -/
def ServeHTTP (lib : Lib) (now : Time) (s : UserService) (r : Request) :
    Response × UserService :=
  if r.Method = MethodGet then handleGetUsers lib s r
  else if r.Method = MethodPost then handleCreateUser lib now s r
  else if r.Method = MethodPut then handleUpdateUser lib s r
  else if r.Method = MethodDelete then handleDeactivateUser lib s r
  else ({ Status := StatusMethodNotAllowed, Body := .error "Method not allowed" }, s)

/-- Decimal digits to a number, most significant first; `none` on any other
character. -/
def digitsValue (acc : Nat) : List Char → Option Nat
  | [] => some acc
  | c :: cs =>
    if 48 ≤ c.toNat ∧ c.toNat ≤ 57 then digitsValue (10 * acc + (c.toNat - 48)) cs else none

/-- A decimal integer with an optional sign, within the range of a 64-bit
`int`. -/
def sampleAtoi (str : String) : Option Int :=
  let signed : Option Int :=
    match str.data with
    | [] => none
    | '-' :: cs => if cs = [] then none else (digitsValue 0 cs).map (fun n => -(n : Int))
    | '+' :: cs => if cs = [] then none else (digitsValue 0 cs).map (fun n => (n : Int))
    | cs => (digitsValue 0 cs).map (fun n => (n : Int))
  signed.bind (fun n =>
    if -9223372036854775808 ≤ n ∧ n < 9223372036854775808 then some n else none)

/-- Split at the first comma. -/
def splitComma : List Char → Option (List Char × List Char)
  | [] => none
  | c :: cs => if c = ',' then some ([], cs) else (splitComma cs).map (fun p => (c :: p.1, p.2))

/-- A stand-in for the library on concrete inputs: signed decimal integers, and
a body of the shape `name,email` instead of JSON. -/
def sampleLib : Lib :=
  { Atoi := sampleAtoi
    Decode := fun body => (splitComma body.data).map (fun p => (String.mk p.1, String.mk p.2)) }

/-! ## Sample data -/

/-- A run that mixes all five calls. -/
def sampleOps : List Op :=
  [ .create "Alice Johnson" "alice@example.com" 100,
    .get 1,
    .create "Bob Smith" "bob@example.com" 100,
    .update 1 "Alicia" "a2@x.com",
    .deactivate 2,
    .getAll,
    .update 7 "Nobody" "n@x.com",
    .create "Charlie Brown" "charlie@example.com" 250 ]

/-- The service at the end of `sampleOps`. -/
def sampleService : UserService :=
  (runOps NewUserService sampleOps).1

/-! ## Slices and their backing arrays

The list-valued `UserService` above identifies a slice with its elements.  What
a caller can do with the slice `GetAllUsers` hands out depends on which backing
array the slice points to, so the registry is embedded a second time with the
slice header and the heap of backing arrays explicit. -/

/-- A slice value: the backing array it points to, its length and its capacity.
Every slice of the program starts at the first element of its array. -/
structure Slice where
  array : Nat
  len : Nat
  cap : Nat
deriving DecidableEq

/-- The heap: the backing arrays allocated so far, by address. -/
abbrev Heap := List (List User)

/-- Apply `f` to the element at position `i`; nothing when `i` is out of range. -/
def updateAt {α : Type} (f : α → α) : Nat → List α → List α
  | _, [] => []
  | 0, a :: rest => f a :: rest
  | i + 1, a :: rest => a :: updateAt f i rest

/-- The elements a slice shows: the first `len` elements of its array. -/
def elems (h : Heap) (sl : Slice) : List User :=
  (h.getD sl.array []).take sl.len

/-- The assignment `sl[i] = f(sl[i])`: a write into the backing array. -/
def storeAt (h : Heap) (sl : Slice) (i : Nat) (f : User → User) : Heap :=
  updateAt (updateAt f i) sl.array h

/-- The zero value of `User`. -/
def zeroUser : User :=
  { ID := 0, Name := "", Email := "", CreatedAt := 0, Active := false }

/-- The built-in `append(sl, u)`: write in place when the capacity allows,
otherwise move the elements to a new array.  The spare capacity the runtime
adds to a new array of `n` elements is the parameter `spare n`. -/
def appendUser (spare : Nat → Nat) (h : Heap) (sl : Slice) (u : User) : Heap × Slice :=
  if sl.len < sl.cap then
    (updateAt (updateAt (fun _ => u) sl.len) sl.array h, { sl with len := sl.len + 1 })
  else
    (h ++ [elems h sl ++ [u] ++ List.replicate (spare (sl.len + 1)) zeroUser],
      { array := h.length, len := sl.len + 1, cap := sl.len + 1 + spare (sl.len + 1) })

/-- The `UserService` struct with `users` as a slice header. -/
structure ServiceCell where
  users : Slice
  nextID : Int
deriving DecidableEq

/-- The memory of a program using the registry: the heap and the service. -/
structure Mem where
  heap : Heap
  service : ServiceCell
deriving DecidableEq

/-- The list-valued service a memory state stands for. -/
def Mem.abs (m : Mem) : UserService :=
  { users := elems m.heap m.service.users, nextID := m.service.nextID }

/-- `NewUserService` with `make([]User, 0)` as an empty array of its own. -/
def Mem.NewUserService : Mem :=
  { heap := [[]], service := { users := { array := 0, len := 0, cap := 0 }, nextID := 1 } }

/-- `CreateUser` on memory: `append` into the backing array, the record
returned is the local `user`, not an element of the array. -/
def Mem.CreateUser (spare : Nat → Nat) (m : Mem) (name email : String) (now : Time) :
    User × Mem :=
  let user : User :=
    { ID := m.service.nextID, Name := name, Email := email, CreatedAt := now, Active := true }
  (user,
    { heap := (appendUser spare m.heap m.service.users user).1
      service :=
        { users := (appendUser spare m.heap m.service.users user).2
          nextID := wrapInt (m.service.nextID + 1) } })

/-- The position of the first record whose `ID` is `id`. -/
def scanIndex (id : Int) : List User → Option Nat
  | [] => none
  | user :: rest => if user.ID = id then some 0 else (scanIndex id rest).map (fun i => i + 1)

/-- `GetUser` on memory: the loop variable `user` is a copy of the element, and
the pointer returned points to that copy. -/
def Mem.GetUser (m : Mem) (id : Int) : Option User × Option String :=
  match scanGet id (elems m.heap m.service.users) with
  | some user => (some user, none)
  | none => (none, some (notFound id))

/-- `GetAllUsers` on memory: `return s.users` copies the slice header, which
points to the same backing array. -/
def Mem.GetAllUsers (m : Mem) : Slice :=
  m.service.users

/-- `UpdateUser` on memory: `s.users[i].Name = name; s.users[i].Email = email`
at the first position `i` whose record has the id. -/
def Mem.UpdateUser (m : Mem) (id : Int) (name email : String) : Option String × Mem :=
  match scanIndex id (elems m.heap m.service.users) with
  | some i =>
    (none, { m with heap := storeAt m.heap m.service.users i
                      (fun u => { u with Name := name, Email := email }) })
  | none => (some (notFound id), m)

/-- `DeactivateUser` on memory: `s.users[i].Active = false` at the first
position `i` whose record has the id. -/
def Mem.DeactivateUser (m : Mem) (id : Int) : Option String × Mem :=
  match scanIndex id (elems m.heap m.service.users) with
  | some i =>
    (none, { m with heap := storeAt m.heap m.service.users i
                      (fun u => { u with Active := false }) })
  | none => (some (notFound id), m)

/-- The memory after `service.CreateUser("Alice Johnson", "alice@example.com")`
on a fresh service. -/
def Mem.oneUser (spare : Nat → Nat) : Mem :=
  (Mem.CreateUser spare Mem.NewUserService "Alice Johnson" "alice@example.com" 100).2

/-- The memory layout is well formed: the slice of the service points to an
allocated array whose size is the capacity, and the length is within it. -/
def Mem.WF (m : Mem) : Prop :=
  m.service.users.array < m.heap.length ∧
    (m.heap.getD m.service.users.array []).length = m.service.users.cap ∧
    m.service.users.len ≤ m.service.users.cap

/-! ## Vocabulary of the frame properties -/

/-- The call `r.URL.Query().Has(key)`: the query string carries the key. -/
def queryHas (key : String) : List (String × String) → Bool
  | [] => false
  | (k, _) :: rest => if k = key then true else queryHas key rest

/-- Serve the requests in order, each with its clock reading: the service at
the end. -/
def serveAll (lib : Lib) (s : UserService) : List (Time × Request) → UserService
  | [] => s
  | (now, r) :: rest => serveAll lib (ServeHTTP lib now s r).2 rest

/-- Every record of `s` is still in `s'`, at the same position, with the same
`ID` and the same `CreatedAt`, and `s'` holds at least as many records. -/
def KeepsRecords (s s' : UserService) : Prop :=
  s.users.length ≤ s'.users.length ∧
    ∀ (i : Nat) (u : User), s.users[i]? = some u →
      ∃ u', s'.users[i]? = some u' ∧ u'.ID = u.ID ∧ u'.CreatedAt = u.CreatedAt

/-- Every record of `s` that is inactive is still in `s'`, at the same position
and with the same `ID`, and is inactive there. -/
def StaysInactive (s s' : UserService) : Prop :=
  ∀ (i : Nat) (u : User), s.users[i]? = some u → u.Active = false →
    ∃ u', s'.users[i]? = some u' ∧ u'.ID = u.ID ∧ u'.Active = false

/-- From `s` to `s'` nothing changed except, at most, the first record whose
`ID` is `id`: the counter and the number of records are the same, the ids are
the same position by position, every record with another id is the same in all
fields, and a position whose record differs holds `id` with no earlier
position holding it. -/
def TouchesOnly (id : Int) (s s' : UserService) : Prop :=
  s'.nextID = s.nextID ∧
    s'.users.length = s.users.length ∧
    s'.users.map (fun u => u.ID) = s.users.map (fun u => u.ID) ∧
    (∀ (j : Nat) (u : User), s.users[j]? = some u → u.ID ≠ id → s'.users[j]? = some u) ∧
    ∀ (j : Nat), s'.users[j]? ≠ s.users[j]? →
      (∃ u, s.users[j]? = some u ∧ u.ID = id) ∧
        ∀ (k : Nat) (v : User), k < j → s.users[k]? = some v → v.ID ≠ id

/-- The service after `sampleOps` and a deactivation of record 1: records 1 and
2 are inactive. -/
def inactiveService : UserService :=
  (DeactivateUser sampleService 1).2

/-! ## Basic facts -/

theorem wrapInt_of_inRange (x : Int) (h0 : -9223372036854775808 ≤ x)
    (h1 : x < 9223372036854775808) : wrapInt x = x := by
  unfold wrapInt; omega

theorem wrapInt_succ_wrapInt (x : Int) : wrapInt (wrapInt x + 1) = wrapInt (x + 1) := by
  unfold wrapInt; omega

/-! ## The scanning loops -/

theorem scanGet_eq_none (id : Int) (us : List User) :
    scanGet id us = none ↔ id ∉ us.map (fun u => u.ID) := by
  induction us with
  | nil => simp [scanGet]
  | cons u rest ih =>
    by_cases h : u.ID = id
    · simp [scanGet, h]
    · have h' : ¬ id = u.ID := fun e => h e.symm
      simp [scanGet, h, h', ih]

theorem scanGet_isSome (id : Int) (us : List User) (h : id ∈ us.map (fun u => u.ID)) :
    ∃ u, scanGet id us = some u ∧ u.ID = id := by
  induction us with
  | nil => simp at h
  | cons u rest ih =>
    by_cases hu : u.ID = id
    · exact ⟨u, by simp [scanGet, hu], hu⟩
    · have h' : ¬ id = u.ID := fun e => hu e.symm
      simp only [List.map_cons, List.mem_cons, h', false_or] at h
      obtain ⟨v, hv, hid⟩ := ih h
      exact ⟨v, by simp [scanGet, hu, hv], hid⟩

theorem scanGet_append_fresh (id : Int) (us : List User) (u : User) (hid : u.ID = id)
    (hfresh : id ∉ us.map (fun v => v.ID)) : scanGet id (us ++ [u]) = some u := by
  induction us with
  | nil => simp [scanGet, hid]
  | cons v rest ih =>
    simp only [List.map_cons, List.mem_cons, not_or] at hfresh
    have hv : ¬ v.ID = id := fun e => hfresh.1 e.symm
    simp [scanGet, hv, ih hfresh.2]

theorem scanUpdate_eq_none (id : Int) (name email : String) (us : List User) :
    scanUpdate id name email us = none ↔ id ∉ us.map (fun u => u.ID) := by
  induction us with
  | nil => simp [scanUpdate]
  | cons u rest ih =>
    by_cases h : u.ID = id
    · simp [scanUpdate, h]
    · have h' : ¬ id = u.ID := fun e => h e.symm
      simp [scanUpdate, h, h', ih]

theorem scanDeactivate_eq_none (id : Int) (us : List User) :
    scanDeactivate id us = none ↔ id ∉ us.map (fun u => u.ID) := by
  induction us with
  | nil => simp [scanDeactivate]
  | cons u rest ih =>
    by_cases h : u.ID = id
    · simp [scanDeactivate, h]
    · have h' : ¬ id = u.ID := fun e => h e.symm
      simp [scanDeactivate, h, h', ih]

/-- The update loop keeps the id and the creation time at every position. -/
theorem scanUpdate_keys (id : Int) (name email : String) (us us' : List User)
    (h : scanUpdate id name email us = some us') :
    us'.map (fun u => (u.ID, u.CreatedAt)) = us.map (fun u => (u.ID, u.CreatedAt)) := by
  induction us generalizing us' with
  | nil => simp [scanUpdate] at h
  | cons u rest ih =>
    by_cases hu : u.ID = id
    · subst hu
      simp only [scanUpdate, if_true, Option.some.injEq] at h
      subst h; simp
    · simp only [scanUpdate, hu, if_false, Option.map_eq_some'] at h
      obtain ⟨r, hr, rfl⟩ := h
      simp [ih r hr]

/-- The deactivation loop keeps the id and the creation time at every position. -/
theorem scanDeactivate_keys (id : Int) (us us' : List User)
    (h : scanDeactivate id us = some us') :
    us'.map (fun u => (u.ID, u.CreatedAt)) = us.map (fun u => (u.ID, u.CreatedAt)) := by
  induction us generalizing us' with
  | nil => simp [scanDeactivate] at h
  | cons u rest ih =>
    by_cases hu : u.ID = id
    · subst hu
      simp only [scanDeactivate, if_true, Option.some.injEq] at h
      subst h; simp
    · simp only [scanDeactivate, hu, if_false, Option.map_eq_some'] at h
      obtain ⟨r, hr, rfl⟩ := h
      simp [ih r hr]

/-- After the update loop, the scan for the same id finds the record it found
before, with the new name and email. -/
theorem scanGet_scanUpdate (id : Int) (name email : String) (us : List User) (u : User)
    (h : scanGet id us = some u) :
    ∃ us', scanUpdate id name email us = some us' ∧
      scanGet id us' = some { u with Name := name, Email := email } := by
  induction us with
  | nil => simp [scanGet] at h
  | cons v rest ih =>
    by_cases hv : v.ID = id
    · simp only [scanGet, hv, if_true, Option.some.injEq] at h
      subst h; subst hv
      exact ⟨{ v with Name := name, Email := email } :: rest, by simp [scanUpdate],
        by simp [scanGet]⟩
    · simp only [scanGet, hv, if_false] at h
      obtain ⟨r, hr, hg⟩ := ih h
      exact ⟨v :: r, by simp [scanUpdate, hv, hr], by simp [scanGet, hv, hg]⟩

/-- After the deactivation loop, the scan for the same id finds the record it
found before, with `Active` cleared. -/
theorem scanGet_scanDeactivate (id : Int) (us : List User) (u : User)
    (h : scanGet id us = some u) :
    ∃ us', scanDeactivate id us = some us' ∧
      scanGet id us' = some { u with Active := false } := by
  induction us with
  | nil => simp [scanGet] at h
  | cons v rest ih =>
    by_cases hv : v.ID = id
    · simp only [scanGet, hv, if_true, Option.some.injEq] at h
      subst h; subst hv
      exact ⟨{ v with Active := false } :: rest, by simp [scanDeactivate],
        by simp [scanGet]⟩
    · simp only [scanGet, hv, if_false] at h
      obtain ⟨r, hr, hg⟩ := ih h
      exact ⟨v :: r, by simp [scanDeactivate, hv, hr], by simp [scanGet, hv, hg]⟩

/-! ## Frame facts of the operations -/

theorem UpdateUser_keys (s : UserService) (id : Int) (name email : String) :
    (UpdateUser s id name email).2.users.map (fun u => (u.ID, u.CreatedAt)) =
      s.users.map (fun u => (u.ID, u.CreatedAt)) := by
  unfold UpdateUser
  cases h : scanUpdate id name email s.users with
  | none => rfl
  | some us' => exact scanUpdate_keys id name email s.users us' h

theorem DeactivateUser_keys (s : UserService) (id : Int) :
    (DeactivateUser s id).2.users.map (fun u => (u.ID, u.CreatedAt)) =
      s.users.map (fun u => (u.ID, u.CreatedAt)) := by
  unfold DeactivateUser
  cases h : scanDeactivate id s.users with
  | none => rfl
  | some us' => exact scanDeactivate_keys id s.users us' h

theorem UpdateUser_nextID (s : UserService) (id : Int) (name email : String) :
    (UpdateUser s id name email).2.nextID = s.nextID := by
  unfold UpdateUser
  cases scanUpdate id name email s.users <;> rfl

theorem DeactivateUser_nextID (s : UserService) (id : Int) :
    (DeactivateUser s id).2.nextID = s.nextID := by
  unfold DeactivateUser
  cases scanDeactivate id s.users <;> rfl

theorem length_of_keys (us us' : List User)
    (h : us'.map (fun u => (u.ID, u.CreatedAt)) = us.map (fun u => (u.ID, u.CreatedAt))) :
    us'.length = us.length := by
  simpa using congrArg List.length h

theorem ids_of_keys (s s' : UserService)
    (h : s'.users.map (fun u => (u.ID, u.CreatedAt)) = s.users.map (fun u => (u.ID, u.CreatedAt))) :
    ids s' = ids s := by
  have := congrArg (List.map Prod.fst) h
  simpa [ids, List.map_map, Function.comp] using this

/-! ## The counter invariant -/

theorem counterInv_new : CounterInv NewUserService := by
  simp [CounterInv, NewUserService, ids, wrapInt]

theorem counterInv_create (s : UserService) (name email : String) (now : Time)
    (h : CounterInv s) : CounterInv (CreateUser s name email now).2 := by
  obtain ⟨hn, hi⟩ := h
  refine ⟨?_, ?_⟩
  · simp only [CreateUser, List.length_append, List.length_singleton, Nat.cast_add, Nat.cast_one]
    rw [hn]; exact wrapInt_succ_wrapInt _
  · simp only [ids] at hi
    simp only [ids, CreateUser, List.map_append, List.length_append, List.length_singleton,
      List.range_succ, List.map_cons, List.map_nil, hi, hn]

theorem counterInv_of_keys (s s' : UserService)
    (hk : s'.users.map (fun u => (u.ID, u.CreatedAt)) = s.users.map (fun u => (u.ID, u.CreatedAt)))
    (hn : s'.nextID = s.nextID) (h : CounterInv s) : CounterInv s' := by
  obtain ⟨h1, h2⟩ := h
  have hl := length_of_keys s.users s'.users hk
  exact ⟨by rw [hn, hl]; exact h1, by rw [ids_of_keys s s' hk, hl]; exact h2⟩

theorem counterInv_applyOp (s : UserService) (op : Op) (h : CounterInv s) :
    CounterInv (applyOp s op).1 := by
  cases op with
  | create name email now => exact counterInv_create s name email now h
  | get id => exact h
  | getAll => exact h
  | update id name email =>
    exact counterInv_of_keys s _ (UpdateUser_keys s id name email)
      (UpdateUser_nextID s id name email) h
  | deactivate id =>
    exact counterInv_of_keys s _ (DeactivateUser_keys s id) (DeactivateUser_nextID s id) h

theorem counterInv_runOps (ops : List Op) (s : UserService) (h : CounterInv s) :
    CounterInv (runOps s ops).1 := by
  induction ops generalizing s with
  | nil => exact h
  | cons op ops ih => exact ih _ (counterInv_applyOp s op h)

/-- Without overflow the ids held are `1, 2, ..., n` and `nextID` is `n + 1`. -/
theorem counterInv_noOverflow (s : UserService) (h : CounterInv s) (hno : NoOverflow s) :
    s.nextID = (s.users.length : Int) + 1 ∧
      ids s = (List.range s.users.length).map (fun (i : Nat) => (i : Int) + 1) := by
  obtain ⟨hn, hi⟩ := h
  unfold NoOverflow at hno
  refine ⟨?_, ?_⟩
  · rw [hn]; exact wrapInt_of_inRange _ (by omega) hno
  · rw [hi]
    apply List.map_congr_left
    intro i hi'
    have : i < s.users.length := List.mem_range.mp hi'
    exact wrapInt_of_inRange _ (by omega) (by omega)

/-! ## Runs -/

theorem applyOp_keys (s : UserService) (op : Op) :
    (applyOp s op).1.users.map (fun u => (u.ID, u.CreatedAt)) =
      s.users.map (fun u => (u.ID, u.CreatedAt)) ++
        (applyOp s op).2.toList.map (fun u => (u.ID, u.CreatedAt)) := by
  cases op with
  | create name email now => simp [applyOp, CreateUser]
  | get id => simp [applyOp]
  | getAll => simp [applyOp]
  | update id name email => simp [applyOp, UpdateUser_keys]
  | deactivate id => simp [applyOp, DeactivateUser_keys]

/-- The collection at the end of a run is, position by position in id and
creation time, the collection at the start followed by the records created. -/
theorem runOps_keys (ops : List Op) (s : UserService) :
    (runOps s ops).1.users.map (fun u => (u.ID, u.CreatedAt)) =
      s.users.map (fun u => (u.ID, u.CreatedAt)) ++
        (runOps s ops).2.map (fun u => (u.ID, u.CreatedAt)) := by
  induction ops generalizing s with
  | nil => simp [runOps]
  | cons op ops ih =>
    simp only [runOps, ih, applyOp_keys, List.map_append, List.append_assoc]

theorem runOps_created_length (ops : List Op) (s : UserService) :
    (runOps s ops).2.length = countCreates ops := by
  induction ops generalizing s with
  | nil => rfl
  | cons op ops ih =>
    cases op <;> simp [runOps, applyOp, countCreates, ih]

/-- The ids held after a run from the fresh service are the ids the
`CreateUser` calls returned. -/
theorem runOps_ids (ops : List Op) :
    ids (runOps NewUserService ops).1 = (runOps NewUserService ops).2.map (fun u => u.ID) := by
  have h := congrArg (List.map Prod.fst) (runOps_keys ops NewUserService)
  simpa [ids, NewUserService, List.map_map, Function.comp] using h

/-! ## Id assignment -/

/-- C1. For every sequence of registry calls applied to a fresh service, as long
as the counter has not overflowed, the ids returned by the successive
`CreateUser` calls are strictly increasing, pairwise distinct, and the first
one is 1. -/
theorem createUser_ids_strictly_increasing (ops : List Op)
    (hno : NoOverflow (runOps NewUserService ops).1) :
    ((runOps NewUserService ops).2.map (fun u => u.ID)).Pairwise (fun a b => a < b) ∧
      ((runOps NewUserService ops).2.map (fun u => u.ID)).Nodup ∧
      ∀ id ∈ ((runOps NewUserService ops).2.map (fun u => u.ID)).head?, id = 1 := by
  have hinv := counterInv_runOps ops NewUserService counterInv_new
  obtain ⟨-, hids⟩ := counterInv_noOverflow _ hinv hno
  rw [runOps_ids] at hids
  rw [hids]
  have hpw : ((List.range (runOps NewUserService ops).1.users.length).map
      (fun (i : Nat) => (i : Int) + 1)).Pairwise (fun a b => a < b) := by
    rw [List.pairwise_map]
    exact List.Pairwise.imp (fun {a b} (h : a < b) => by omega) (List.pairwise_lt_range _)
  refine ⟨hpw, hpw.imp (fun {a b} (h : a < b) => by omega), ?_⟩
  intro id hid
  cases hlen : (runOps NewUserService ops).1.users.length with
  | zero => simp [hlen] at hid
  | succ n =>
    rw [hlen, List.range_succ_eq_map] at hid
    simp at hid
    omega

/-- The id property on `sampleOps`: three records created, ids 1, 2, 3. -/
theorem createUser_ids_strictly_increasing_witness :
    NoOverflow (runOps NewUserService sampleOps).1 ∧
      ((runOps NewUserService sampleOps).2.map (fun u => u.ID)).Pairwise (fun a b => a < b) ∧
      ((runOps NewUserService sampleOps).2.map (fun u => u.ID)).Nodup ∧
      ∀ id ∈ ((runOps NewUserService sampleOps).2.map (fun u => u.ID)).head?, id = 1 :=
  ⟨by decide, createUser_ids_strictly_increasing sampleOps (by decide)⟩

theorem GetUser_of_scanGet (s : UserService) (id : Int) (u : User)
    (h : scanGet id s.users = some u) : GetUser s id = (some u, none) := by
  simp [GetUser, h]

theorem GetUser_of_not_mem (s : UserService) (id : Int) (h : id ∉ ids s) :
    GetUser s id = (none, some (notFound id)) := by
  have := (scanGet_eq_none id s.users).mpr h
  simp [GetUser, this]

theorem UpdateUser_of_not_mem (s : UserService) (id : Int) (name email : String)
    (h : id ∉ ids s) : UpdateUser s id name email = (some (notFound id), s) := by
  have := (scanUpdate_eq_none id name email s.users).mpr h
  simp [UpdateUser, this]

theorem DeactivateUser_of_not_mem (s : UserService) (id : Int) (h : id ∉ ids s) :
    DeactivateUser s id = (some (notFound id), s) := by
  have := (scanDeactivate_eq_none id s.users).mpr h
  simp [DeactivateUser, this]

/-- On an id held by a record, `UpdateUser` returns no error and `GetUser`
afterwards returns the record it returned before with the new name and email. -/
theorem UpdateUser_of_mem (s : UserService) (id : Int) (name email : String)
    (h : id ∈ ids s) :
    (UpdateUser s id name email).1 = none ∧
      ∃ u, GetUser s id = (some u, none) ∧
        GetUser (UpdateUser s id name email).2 id =
          (some { u with Name := name, Email := email }, none) := by
  obtain ⟨u, hu, -⟩ := scanGet_isSome id s.users h
  obtain ⟨us', hup, hget⟩ := scanGet_scanUpdate id name email s.users u hu
  refine ⟨by simp [UpdateUser, hup], u, GetUser_of_scanGet s id u hu, ?_⟩
  simp [UpdateUser, hup, GetUser, hget]

/-- On an id held by a record, `DeactivateUser` returns no error and `GetUser`
afterwards returns the record it returned before with `Active` cleared. -/
theorem DeactivateUser_of_mem (s : UserService) (id : Int) (h : id ∈ ids s) :
    (DeactivateUser s id).1 = none ∧
      ∃ u, GetUser s id = (some u, none) ∧
        GetUser (DeactivateUser s id).2 id = (some { u with Active := false }, none) := by
  obtain ⟨u, hu, -⟩ := scanGet_isSome id s.users h
  obtain ⟨us', hde, hget⟩ := scanGet_scanDeactivate id s.users u hu
  refine ⟨by simp [DeactivateUser, hde], u, GetUser_of_scanGet s id u hu, ?_⟩
  simp [DeactivateUser, hde, GetUser, hget]

/-- Without overflow `nextID` is held by no record. -/
theorem nextID_fresh (s : UserService) (h : CounterInv s) (hno : NoOverflow s) :
    s.nextID ∉ ids s := by
  obtain ⟨hn, hi⟩ := counterInv_noOverflow s h hno
  rw [hi, hn]
  simp only [List.mem_map, List.mem_range, not_exists, not_and]
  intro i hi' heq
  omega

/-! ## Create, read, update, deactivate -/

/-- C2. In every state reached from a fresh service in which the counter has
not overflowed, `GetUser` called with the id of the record `CreateUser` has just
returned succeeds and returns that very record (all five fields): the scan
does not stop at an older record. -/
theorem getUser_after_createUser (ops : List Op) (name email : String) (now : Time)
    (hno : NoOverflow (runOps NewUserService ops).1) :
    GetUser (CreateUser (runOps NewUserService ops).1 name email now).2
        (CreateUser (runOps NewUserService ops).1 name email now).1.ID =
      (some (CreateUser (runOps NewUserService ops).1 name email now).1, none) := by
  have hinv := counterInv_runOps ops NewUserService counterInv_new
  have hfresh := nextID_fresh _ hinv hno
  apply GetUser_of_scanGet
  exact scanGet_append_fresh _ _ _ rfl hfresh

/-- A fourth record created after `sampleOps` is found under its id 4. -/
theorem getUser_after_createUser_witness :
    NoOverflow (runOps NewUserService sampleOps).1 ∧
      GetUser (CreateUser (runOps NewUserService sampleOps).1 "Dora" "dora@x.com" 300).2 4 =
        (some { ID := 4, Name := "Dora", Email := "dora@x.com", CreatedAt := 300, Active := true },
          none) :=
  ⟨by decide, getUser_after_createUser sampleOps "Dora" "dora@x.com" 300 (by decide)⟩

/-- C3. For every state of the service (reachable or not), every id held by
some record and all strings `n` and `e`: `UpdateUser id n e` returns no error,
and `GetUser id` afterwards returns the record `GetUser id` returned before
with `Name = n` and `Email = e`; `ID`, `CreatedAt` and `Active` are the same. -/
theorem updateUser_then_getUser (s : UserService) (id : Int) (n e : String)
    (hid : id ∈ ids s) :
    (UpdateUser s id n e).1 = none ∧
      ∃ u, GetUser s id = (some u, none) ∧
        GetUser (UpdateUser s id n e).2 id =
          (some { ID := u.ID, Name := n, Email := e, CreatedAt := u.CreatedAt,
                  Active := u.Active }, none) :=
  UpdateUser_of_mem s id n e hid

/-- Updating record 2 of `sampleService`. -/
theorem updateUser_then_getUser_witness :
    2 ∈ ids sampleService ∧
      (UpdateUser sampleService 2 "Robert" "rob@x.com").1 = none ∧
      ∃ u, GetUser sampleService 2 = (some u, none) ∧
        GetUser (UpdateUser sampleService 2 "Robert" "rob@x.com").2 2 =
          (some { ID := u.ID, Name := "Robert", Email := "rob@x.com", CreatedAt := u.CreatedAt,
                  Active := u.Active }, none) :=
  ⟨by decide, updateUser_then_getUser sampleService 2 "Robert" "rob@x.com" (by decide)⟩

/-- C4. For every state of the service (reachable or not) and every id held by
some record: `DeactivateUser id` returns no error, and `GetUser id` afterwards
returns the record `GetUser id` returned before with `Active = false`; `ID`,
`Name`, `Email` and `CreatedAt` are the same. -/
theorem deactivateUser_then_getUser (s : UserService) (id : Int) (hid : id ∈ ids s) :
    (DeactivateUser s id).1 = none ∧
      ∃ u, GetUser s id = (some u, none) ∧
        GetUser (DeactivateUser s id).2 id =
          (some { ID := u.ID, Name := u.Name, Email := u.Email, CreatedAt := u.CreatedAt,
                  Active := false }, none) :=
  DeactivateUser_of_mem s id hid

/-- Deactivating record 1 of `sampleService`. -/
theorem deactivateUser_then_getUser_witness :
    1 ∈ ids sampleService ∧
      (DeactivateUser sampleService 1).1 = none ∧
      ∃ u, GetUser sampleService 1 = (some u, none) ∧
        GetUser (DeactivateUser sampleService 1).2 1 =
          (some { ID := u.ID, Name := u.Name, Email := u.Email, CreatedAt := u.CreatedAt,
                  Active := false }, none) :=
  ⟨by decide, deactivateUser_then_getUser sampleService 1 (by decide)⟩

/-- C5. In every state reached from a fresh service: for an id that no
`CreateUser` call has returned, `GetUser`, `UpdateUser` and `DeactivateUser`
each fail with the error `user with ID <id> not found` (and leave the service
as it is); for an id that a `CreateUser` call has returned, each of the three
succeeds. -/
theorem notFound_iff_never_issued (ops : List Op) (id : Int) (n e : String) :
    (id ∉ (runOps NewUserService ops).2.map (fun u => u.ID) →
        GetUser (runOps NewUserService ops).1 id = (none, some (notFound id)) ∧
        UpdateUser (runOps NewUserService ops).1 id n e =
          (some (notFound id), (runOps NewUserService ops).1) ∧
        DeactivateUser (runOps NewUserService ops).1 id =
          (some (notFound id), (runOps NewUserService ops).1)) ∧
      (id ∈ (runOps NewUserService ops).2.map (fun u => u.ID) →
        (∃ u, GetUser (runOps NewUserService ops).1 id = (some u, none) ∧ u.ID = id) ∧
        (UpdateUser (runOps NewUserService ops).1 id n e).1 = none ∧
        (DeactivateUser (runOps NewUserService ops).1 id).1 = none) := by
  rw [← runOps_ids]
  constructor
  · intro h
    exact ⟨GetUser_of_not_mem _ id h, UpdateUser_of_not_mem _ id n e h,
      DeactivateUser_of_not_mem _ id h⟩
  · intro h
    obtain ⟨u, hu, huid⟩ := scanGet_isSome id _ h
    exact ⟨⟨u, GetUser_of_scanGet _ id u hu, huid⟩, (UpdateUser_of_mem _ id n e h).1,
      (DeactivateUser_of_mem _ id h).1⟩

/-- On `sampleService` id 7 was never issued and id 3 was. -/
theorem notFound_iff_never_issued_witness :
    (7 ∉ (runOps NewUserService sampleOps).2.map (fun u => u.ID) ∧
        GetUser (runOps NewUserService sampleOps).1 7 = (none, some "user with ID 7 not found") ∧
        UpdateUser (runOps NewUserService sampleOps).1 7 "n" "e" =
          (some "user with ID 7 not found", (runOps NewUserService sampleOps).1) ∧
        DeactivateUser (runOps NewUserService sampleOps).1 7 =
          (some "user with ID 7 not found", (runOps NewUserService sampleOps).1)) ∧
      (3 ∈ (runOps NewUserService sampleOps).2.map (fun u => u.ID) ∧
        (∃ u, GetUser (runOps NewUserService sampleOps).1 3 = (some u, none) ∧ u.ID = 3) ∧
        (UpdateUser (runOps NewUserService sampleOps).1 3 "n" "e").1 = none ∧
        (DeactivateUser (runOps NewUserService sampleOps).1 3).1 = none) :=
  ⟨⟨by decide, (notFound_iff_never_issued sampleOps 7 "n" "e").1 (by decide)⟩,
    ⟨by decide, (notFound_iff_never_issued sampleOps 3 "n" "e").2 (by decide)⟩⟩

/-- C6. After every sequence of registry calls on a fresh service, the list
`GetAllUsers` returns has as many elements as `CreateUser` calls were made, and
position by position it carries the `ID` and `CreatedAt` of the records those
calls returned, in call order: nothing is filtered out or reordered. -/
theorem getAllUsers_creation_order (ops : List Op) :
    (GetAllUsers (runOps NewUserService ops).1).length = countCreates ops ∧
      (GetAllUsers (runOps NewUserService ops).1).map (fun u => (u.ID, u.CreatedAt)) =
        (runOps NewUserService ops).2.map (fun u => (u.ID, u.CreatedAt)) := by
  have hk : (GetAllUsers (runOps NewUserService ops).1).map (fun u => (u.ID, u.CreatedAt)) =
      (runOps NewUserService ops).2.map (fun u => (u.ID, u.CreatedAt)) := by
    simpa [GetAllUsers, NewUserService] using runOps_keys ops NewUserService
  refine ⟨?_, hk⟩
  rw [← runOps_created_length ops NewUserService]
  simpa using congrArg List.length hk

/-- C10. In every state reached from a fresh service in which the counter has
not overflowed, no two records hold the same id, every id is positive, and
every id is strictly below `nextID`. -/
theorem ids_unique_positive_below_nextID (ops : List Op)
    (hno : NoOverflow (runOps NewUserService ops).1) :
    (ids (runOps NewUserService ops).1).Nodup ∧
      ∀ id ∈ ids (runOps NewUserService ops).1,
        0 < id ∧ id < (runOps NewUserService ops).1.nextID := by
  have hinv := counterInv_runOps ops NewUserService counterInv_new
  obtain ⟨hn, hi⟩ := counterInv_noOverflow _ hinv hno
  rw [hi, hn]
  constructor
  · unfold List.Nodup
    rw [List.pairwise_map]
    exact List.Pairwise.imp (fun {a b} (h : a < b) => by omega) (List.pairwise_lt_range _)
  · intro id hid
    simp only [List.mem_map, List.mem_range] at hid
    obtain ⟨i, hi', rfl⟩ := hid
    omega

/-- The id invariant on the service at the end of `sampleOps`. -/
theorem ids_unique_positive_below_nextID_witness :
    NoOverflow (runOps NewUserService sampleOps).1 ∧
      (ids (runOps NewUserService sampleOps).1).Nodup ∧
      ∀ id ∈ ids (runOps NewUserService sampleOps).1,
        0 < id ∧ id < (runOps NewUserService sampleOps).1.nextID :=
  ⟨by decide, ids_unique_positive_below_nextID sampleOps (by decide)⟩

/-! ## The handler: create and update -/

theorem ServeHTTP_post (lib : Lib) (now : Time) (s : UserService) (r : Request)
    (hm : r.Method = "POST") : ServeHTTP lib now s r = handleCreateUser lib now s r := by
  simp [ServeHTTP, hm, MethodGet, MethodPost]

theorem ServeHTTP_put (lib : Lib) (now : Time) (s : UserService) (r : Request)
    (hm : r.Method = "PUT") : ServeHTTP lib now s r = handleUpdateUser lib s r := by
  simp [ServeHTTP, hm, MethodGet, MethodPost, MethodPut]

/-- A `PUT` handler run that reaches `UpdateUser` on an id held by a record:
200, the confirmation text, and the service `UpdateUser` leaves. -/
theorem handleUpdateUser_of_mem (lib : Lib) (s : UserService) (r : Request) (id : Int)
    (n e : String) (hq : queryGet "id" r.Query ≠ "")
    (ha : lib.Atoi (queryGet "id" r.Query) = some id) (hd : lib.Decode r.Body = some (n, e))
    (hid : id ∈ ids s) :
    handleUpdateUser lib s r =
      ({ Status := 200, Body := .text "User updated successfully" }, (UpdateUser s id n e).2) := by
  have h1 := (UpdateUser_of_mem s id n e hid).1
  unfold handleUpdateUser
  simp only [hq, if_false, ha, hd]
  cases hu : UpdateUser s id n e with
  | mk err s' =>
    rw [hu] at h1
    simp only at h1
    subst h1
    rfl

/-- C8. For every state of the service and every `POST` request: a body that
does not decode is answered 400 `Invalid JSON` and the service is unchanged; a
body that decodes to an empty name or an empty email is answered 400
`Name and email are required` and the service is unchanged; otherwise the
answer is 201 with the record `CreateUser` returns, and the collection is the
old one followed by one record with that name and email, `Active = true` and
the previous `nextID` as its `ID`. -/
theorem post_create_validation (lib : Lib) (now : Time) (s : UserService) (r : Request)
    (hm : r.Method = "POST") :
    (lib.Decode r.Body = none →
        ServeHTTP lib now s r = ({ Status := 400, Body := .error "Invalid JSON" }, s)) ∧
      ∀ name email, lib.Decode r.Body = some (name, email) →
        ((name = "" ∨ email = "") →
          ServeHTTP lib now s r =
            ({ Status := 400, Body := .error "Name and email are required" }, s)) ∧
        ((name ≠ "" ∧ email ≠ "") →
          (ServeHTTP lib now s r).1 =
            { Status := 201, Body := .user (some (CreateUser s name email now).1) } ∧
          (ServeHTTP lib now s r).2 = (CreateUser s name email now).2 ∧
          (ServeHTTP lib now s r).2.users =
            s.users ++ [{ ID := s.nextID, Name := name, Email := email, CreatedAt := now,
                          Active := true }]) := by
  rw [ServeHTTP_post lib now s r hm]
  refine ⟨?_, ?_⟩
  · intro hd
    simp [handleCreateUser, hd, StatusBadRequest]
  · intro name email hd
    refine ⟨?_, ?_⟩
    · intro he
      simp [handleCreateUser, hd, he, StatusBadRequest]
    · intro hne
      have : ¬ (name = "" ∨ email = "") := by
        intro h; cases h with
        | inl h => exact hne.1 h
        | inr h => exact hne.2 h
      simp [handleCreateUser, hd, this, StatusCreated, CreateUser]

/-- Three `POST` requests on `sampleService`: undecodable, empty name, valid. -/
theorem post_create_validation_witness :
    (sampleLib.Decode "no comma" = none ∧
        ServeHTTP sampleLib 300 sampleService
            { Method := "POST", Query := [], Body := "no comma" } =
          ({ Status := 400, Body := .error "Invalid JSON" }, sampleService)) ∧
      (sampleLib.Decode ",x" = some ("", "x") ∧
        ServeHTTP sampleLib 300 sampleService { Method := "POST", Query := [], Body := ",x" } =
          ({ Status := 400, Body := .error "Name and email are required" }, sampleService)) ∧
      (sampleLib.Decode "Dora,d@x.com" = some ("Dora", "d@x.com") ∧
        (ServeHTTP sampleLib 300 sampleService
            { Method := "POST", Query := [], Body := "Dora,d@x.com" }).1 =
          { Status := 201,
            Body := .user (some (CreateUser sampleService "Dora" "d@x.com" 300).1) } ∧
        (ServeHTTP sampleLib 300 sampleService
            { Method := "POST", Query := [], Body := "Dora,d@x.com" }).2 =
          (CreateUser sampleService "Dora" "d@x.com" 300).2 ∧
        (ServeHTTP sampleLib 300 sampleService
            { Method := "POST", Query := [], Body := "Dora,d@x.com" }).2.users =
          sampleService.users ++
            [{ ID := 4, Name := "Dora", Email := "d@x.com", CreatedAt := 300, Active := true }]) :=
  ⟨⟨by decide,
      (post_create_validation sampleLib 300 sampleService
        { Method := "POST", Query := [], Body := "no comma" } rfl).1 (by decide)⟩,
    ⟨by decide,
      ((post_create_validation sampleLib 300 sampleService
        { Method := "POST", Query := [], Body := ",x" } rfl).2 "" "x" (by decide)).1
        (by decide)⟩,
    ⟨by decide,
      ((post_create_validation sampleLib 300 sampleService
        { Method := "POST", Query := [], Body := "Dora,d@x.com" } rfl).2 "Dora" "d@x.com"
        (by decide)).2 (by decide)⟩⟩

/-- C9. Empty values are not rejected on update.  For every state of the service
and every id held by some record, `UpdateUser id "" ""` returns no error and
leaves the record `GetUser id` returns with `Name = ""` and `Email = ""`; and a
`PUT` request whose `id` parameter parses to that id and whose body decodes to
a name and an email of which at least one is empty (a missing field decodes to
the empty string) is answered 200 `User updated successfully`, and the record
holds the decoded values afterwards. -/
theorem update_accepts_empty_values (s : UserService) (id : Int) (hid : id ∈ ids s) :
    ((UpdateUser s id "" "").1 = none ∧
        ∃ u, GetUser s id = (some u, none) ∧
          GetUser (UpdateUser s id "" "").2 id =
            (some { ID := u.ID, Name := "", Email := "", CreatedAt := u.CreatedAt,
                    Active := u.Active }, none)) ∧
      ∀ (lib : Lib) (now : Time) (r : Request) (n e : String),
        r.Method = "PUT" → queryGet "id" r.Query ≠ "" →
        lib.Atoi (queryGet "id" r.Query) = some id → lib.Decode r.Body = some (n, e) →
        (n = "" ∨ e = "") →
          (ServeHTTP lib now s r).1 =
            { Status := 200, Body := .text "User updated successfully" } ∧
          ∃ u, GetUser s id = (some u, none) ∧
            GetUser (ServeHTTP lib now s r).2 id =
              (some { ID := u.ID, Name := n, Email := e, CreatedAt := u.CreatedAt,
                      Active := u.Active }, none) := by
  refine ⟨UpdateUser_of_mem s id "" "" hid, ?_⟩
  intro lib now r n e hm hq ha hd _
  rw [ServeHTTP_put lib now s r hm, handleUpdateUser_of_mem lib s r id n e hq ha hd hid]
  exact ⟨rfl, (UpdateUser_of_mem s id n e hid).2⟩

/-- Record 2 of `sampleService` updated to empty values, directly and by `PUT`. -/
theorem update_accepts_empty_values_witness :
    2 ∈ ids sampleService ∧
      ((UpdateUser sampleService 2 "" "").1 = none ∧
        ∃ u, GetUser sampleService 2 = (some u, none) ∧
          GetUser (UpdateUser sampleService 2 "" "").2 2 =
            (some { ID := u.ID, Name := "", Email := "", CreatedAt := u.CreatedAt,
                    Active := u.Active }, none)) ∧
      (ServeHTTP sampleLib 300 sampleService
          { Method := "PUT", Query := [("id", "2")], Body := "," }).1 =
        { Status := 200, Body := .text "User updated successfully" } ∧
      ∃ u, GetUser sampleService 2 = (some u, none) ∧
        GetUser (ServeHTTP sampleLib 300 sampleService
            { Method := "PUT", Query := [("id", "2")], Body := "," }).2 2 =
          (some { ID := u.ID, Name := "", Email := "", CreatedAt := u.CreatedAt,
                  Active := u.Active }, none) :=
  ⟨by decide, (update_accepts_empty_values sampleService 2 (by decide)).1,
    (update_accepts_empty_values sampleService 2 (by decide)).2 sampleLib 300
      { Method := "PUT", Query := [("id", "2")], Body := "," } "" "" rfl (by decide) (by decide)
      (by decide) (Or.inl rfl)⟩

/-! ## The memory embedding against the list embedding -/

theorem updateAt_length {α : Type} (f : α → α) (i : Nat) (l : List α) :
    (updateAt f i l).length = l.length := by
  induction l generalizing i with
  | nil => cases i <;> rfl
  | cons a rest ih => cases i <;> simp [updateAt, ih]

theorem updateAt_take {α : Type} (f : α → α) (i n : Nat) (l : List α) :
    (updateAt f i l).take n = updateAt f i (l.take n) := by
  induction l generalizing i n with
  | nil => cases i <;> simp [updateAt]
  | cons a rest ih =>
    cases n with
    | zero => cases i <;> simp [updateAt]
    | succ n => cases i <;> simp [updateAt, ih]

theorem updateAt_getD (g : List User → List User) (hg : g [] = []) (a : Nat) (h : Heap) :
    (updateAt g a h).getD a [] = g (h.getD a []) := by
  induction h generalizing a with
  | nil => cases a <;> simp [updateAt, hg]
  | cons x rest ih =>
    cases a with
    | zero => simp [updateAt]
    | succ a => simpa [updateAt] using ih a

theorem updateAt_nil {α : Type} (f : α → α) (i : Nat) : updateAt f i ([] : List α) = [] := by
  cases i <;> rfl

theorem updateAt_heap_length (g : List User → List User) (a : Nat) (h : Heap) :
    (updateAt g a h).length = h.length :=
  updateAt_length g a h

theorem take_succ_updateAt_const (u : User) (n : Nat) (l : List User) (hn : n < l.length) :
    (updateAt (fun _ => u) n l).take (n + 1) = l.take n ++ [u] := by
  induction l generalizing n with
  | nil => simp at hn
  | cons a rest ih =>
    cases n with
    | zero => simp [updateAt]
    | succ n =>
      have : n < rest.length := by simpa using hn
      simp [updateAt, ih n this]

theorem scanGet_eq_scanIndex (id : Int) (l : List User) :
    (scanGet id l).isSome = (scanIndex id l).isSome := by
  induction l with
  | nil => rfl
  | cons a rest ih =>
    by_cases h : a.ID = id
    · simp [scanGet, scanIndex, h]
    · simp [scanGet, scanIndex, h, ih]

theorem scanUpdate_eq_scanIndex (id : Int) (name email : String) (l : List User) :
    scanUpdate id name email l =
      (scanIndex id l).map
        (fun i => updateAt (fun u => { u with Name := name, Email := email }) i l) := by
  induction l with
  | nil => rfl
  | cons a rest ih =>
    by_cases h : a.ID = id
    · simp [scanUpdate, scanIndex, h, updateAt]
    · simp only [scanUpdate, scanIndex, h, if_false, ih, Option.map_map]
      cases scanIndex id rest <;> simp [updateAt]

theorem scanDeactivate_eq_scanIndex (id : Int) (l : List User) :
    scanDeactivate id l =
      (scanIndex id l).map (fun i => updateAt (fun u => { u with Active := false }) i l) := by
  induction l with
  | nil => rfl
  | cons a rest ih =>
    by_cases h : a.ID = id
    · simp [scanDeactivate, scanIndex, h, updateAt]
    · simp only [scanDeactivate, scanIndex, h, if_false, ih, Option.map_map]
      cases scanIndex id rest <;> simp [updateAt]

/-- A write through the slice of the service is the same write on the elements
the slice shows. -/
theorem elems_storeAt (h : Heap) (sl : Slice) (i : Nat) (f : User → User) :
    elems (storeAt h sl i f) sl = updateAt f i (elems h sl) := by
  unfold elems storeAt
  rw [updateAt_getD _ (updateAt_nil f i), updateAt_take]

theorem Mem.abs_new : Mem.abs Mem.NewUserService = UserRegistry.NewUserService := rfl

theorem Mem.wf_new : Mem.WF Mem.NewUserService := by
  simp [Mem.WF, Mem.NewUserService]

theorem Mem.abs_getUser (m : Mem) (id : Int) :
    Mem.GetUser m id = UserRegistry.GetUser (Mem.abs m) id := rfl

theorem Mem.abs_getAllUsers (m : Mem) :
    elems m.heap (Mem.GetAllUsers m) = UserRegistry.GetAllUsers (Mem.abs m) := rfl

/-- `UpdateUser` on memory is `UpdateUser` on the list the memory stands for. -/
theorem Mem.abs_updateUser (m : Mem) (id : Int) (name email : String) :
    (Mem.UpdateUser m id name email).1 = (UserRegistry.UpdateUser (Mem.abs m) id name email).1 ∧
      Mem.abs (Mem.UpdateUser m id name email).2 =
        (UserRegistry.UpdateUser (Mem.abs m) id name email).2 := by
  unfold Mem.UpdateUser UserRegistry.UpdateUser
  rw [scanUpdate_eq_scanIndex]
  simp only [Mem.abs]
  cases scanIndex id (elems m.heap m.service.users) with
  | none => exact ⟨rfl, rfl⟩
  | some i => exact ⟨rfl, by simp [Mem.abs, elems_storeAt]⟩

/-- `DeactivateUser` on memory is `DeactivateUser` on the list the memory
stands for. -/
theorem Mem.abs_deactivateUser (m : Mem) (id : Int) :
    (Mem.DeactivateUser m id).1 = (UserRegistry.DeactivateUser (Mem.abs m) id).1 ∧
      Mem.abs (Mem.DeactivateUser m id).2 = (UserRegistry.DeactivateUser (Mem.abs m) id).2 := by
  unfold Mem.DeactivateUser UserRegistry.DeactivateUser
  rw [scanDeactivate_eq_scanIndex]
  simp only [Mem.abs]
  cases scanIndex id (elems m.heap m.service.users) with
  | none => exact ⟨rfl, rfl⟩
  | some i => exact ⟨rfl, by simp [Mem.abs, elems_storeAt]⟩

/-- On a well-formed memory `append` adds the record at the end of what the
slice shows, and the memory stays well formed. -/
theorem appendUser_elems (spare : Nat → Nat) (h : Heap) (sl : Slice) (u : User)
    (ha : sl.array < h.length) (hc : (h.getD sl.array []).length = sl.cap)
    (hl : sl.len ≤ sl.cap) :
    elems (appendUser spare h sl u).1 (appendUser spare h sl u).2 = elems h sl ++ [u] ∧
      (appendUser spare h sl u).2.array < (appendUser spare h sl u).1.length ∧
      ((appendUser spare h sl u).1.getD (appendUser spare h sl u).2.array []).length =
        (appendUser spare h sl u).2.cap ∧
      (appendUser spare h sl u).2.len ≤ (appendUser spare h sl u).2.cap := by
  unfold appendUser
  by_cases hlt : sl.len < sl.cap
  · simp only [hlt, if_true]
    have hg := updateAt_getD (updateAt (fun _ => u) sl.len) (updateAt_nil _ _) sl.array h
    refine ⟨?_, ?_, ?_, ?_⟩
    · simp only [elems]
      rw [hg]
      exact take_succ_updateAt_const u sl.len _ (by omega)
    · rw [updateAt_heap_length]; exact ha
    · rw [hg, updateAt_length]; exact hc
    · omega
  · simp only [hlt, if_false]
    have hlen : (elems h sl).length = sl.len := by
      simp only [elems, List.length_take]; omega
    refine ⟨?_, ?_, ?_, ?_⟩
    · simp only [elems, List.getD_eq_getElem?_getD]
      rw [List.getElem?_append_right (Nat.le_refl _)]
      simp only [Nat.sub_self, List.getElem?_cons_zero, Option.getD_some]
      have := hlen
      simp only [elems, List.getD_eq_getElem?_getD] at this
      rw [List.append_assoc, List.take_append_eq_append_take]
      simp [this]
    · simp
    · simp only [List.getD_eq_getElem?_getD]
      rw [List.getElem?_append_right (Nat.le_refl _)]
      simp [hlen]
      omega
    · omega

/-- `CreateUser` on a well-formed memory is `CreateUser` on the list the memory
stands for: the same record returned, the same service afterwards. -/
theorem Mem.abs_createUser (spare : Nat → Nat) (m : Mem) (name email : String) (now : Time)
    (hwf : Mem.WF m) :
    (Mem.CreateUser spare m name email now).1 =
        (UserRegistry.CreateUser (Mem.abs m) name email now).1 ∧
      Mem.abs (Mem.CreateUser spare m name email now).2 =
        (UserRegistry.CreateUser (Mem.abs m) name email now).2 ∧
      Mem.WF (Mem.CreateUser spare m name email now).2 := by
  obtain ⟨ha, hc, hl⟩ := hwf
  obtain ⟨h1, h2, h3, h4⟩ := appendUser_elems spare m.heap m.service.users
    { ID := m.service.nextID, Name := name, Email := email, CreatedAt := now, Active := true }
    ha hc hl
  refine ⟨rfl, ?_, ⟨h2, h3, h4⟩⟩
  simp only [Mem.abs, Mem.CreateUser, UserRegistry.CreateUser, h1]

theorem Mem.wf_storeAt (m : Mem) (i : Nat) (f : User → User) (hwf : Mem.WF m) :
    Mem.WF { m with heap := storeAt m.heap m.service.users i f } := by
  obtain ⟨ha, hc, hl⟩ := hwf
  refine ⟨?_, ?_, hl⟩
  · simpa [storeAt, updateAt_length] using ha
  · simp only [storeAt]
    rw [updateAt_getD _ (updateAt_nil f i), updateAt_length]
    exact hc

theorem Mem.wf_updateUser (m : Mem) (id : Int) (name email : String) (hwf : Mem.WF m) :
    Mem.WF (Mem.UpdateUser m id name email).2 := by
  unfold Mem.UpdateUser
  cases scanIndex id (elems m.heap m.service.users) with
  | none => exact hwf
  | some i => exact Mem.wf_storeAt m i _ hwf

theorem Mem.wf_deactivateUser (m : Mem) (id : Int) (hwf : Mem.WF m) :
    Mem.WF (Mem.DeactivateUser m id).2 := by
  unfold Mem.DeactivateUser
  cases scanIndex id (elems m.heap m.service.users) with
  | none => exact hwf
  | some i => exact Mem.wf_storeAt m i _ hwf

/-! ## What the slice returned by `GetAllUsers` shows -/

/-- C7, evaluated on the code.  On a service holding the one record of
`CreateUser("Alice Johnson", "alice@example.com")`, let `L` be the slice
`GetAllUsers()` returns.  `L` shows the record as created; after a successful
`UpdateUser(1, "Eve", "eve@x.com")` the same `L` shows the new name and email;
after a successful `DeactivateUser(1)` the same `L` shows `Active = false`; and
after the caller's write `L[0].Name = "Mallory"` the registry's `GetUser(1)`
returns the name `Mallory`.  The slice is a view of the registry's storage,
whatever spare capacity `append` allocates. -/
theorem getAllUsers_shares_backing_array (spare : Nat → Nat) :
    elems (Mem.oneUser spare).heap (Mem.GetAllUsers (Mem.oneUser spare)) =
        [{ ID := 1, Name := "Alice Johnson", Email := "alice@example.com", CreatedAt := 100,
           Active := true }] ∧
      (Mem.UpdateUser (Mem.oneUser spare) 1 "Eve" "eve@x.com").1 = none ∧
      elems (Mem.UpdateUser (Mem.oneUser spare) 1 "Eve" "eve@x.com").2.heap
          (Mem.GetAllUsers (Mem.oneUser spare)) =
        [{ ID := 1, Name := "Eve", Email := "eve@x.com", CreatedAt := 100, Active := true }] ∧
      (Mem.DeactivateUser (Mem.oneUser spare) 1).1 = none ∧
      elems (Mem.DeactivateUser (Mem.oneUser spare) 1).2.heap
          (Mem.GetAllUsers (Mem.oneUser spare)) =
        [{ ID := 1, Name := "Alice Johnson", Email := "alice@example.com", CreatedAt := 100,
           Active := false }] ∧
      Mem.GetUser
          { heap := storeAt (Mem.oneUser spare).heap (Mem.GetAllUsers (Mem.oneUser spare)) 0
              (fun u => { u with Name := "Mallory" })
            service := (Mem.oneUser spare).service } 1 =
        (some { ID := 1, Name := "Mallory", Email := "alice@example.com", CreatedAt := 100,
                Active := true }, none) :=
  ⟨rfl, rfl, rfl, rfl, rfl, rfl⟩

/-! ## Positions under the mutating loops -/

theorem getElem?_updateAt {α : Type} (f : α → α) (i j : Nat) (l : List α) :
    (updateAt f i l)[j]? = if i = j then (l[j]?).map f else l[j]? := by
  induction l generalizing i j with
  | nil => cases i <;> simp [updateAt]
  | cons a rest ih =>
    cases i with
    | zero => cases j <;> simp [updateAt]
    | succ i =>
      cases j with
      | zero => simp [updateAt]
      | succ j => simp [updateAt, ih]

/-- The position `scanIndex` returns holds the id, and no earlier one does. -/
theorem scanIndex_first (id : Int) (l : List User) (i : Nat) (h : scanIndex id l = some i) :
    (∃ u, l[i]? = some u ∧ u.ID = id) ∧
      ∀ (k : Nat) (v : User), k < i → l[k]? = some v → v.ID ≠ id := by
  induction l generalizing i with
  | nil => simp [scanIndex] at h
  | cons a rest ih =>
    by_cases ha : a.ID = id
    · simp only [scanIndex, ha, if_true, Option.some.injEq] at h
      subst h
      exact ⟨⟨a, by simp, ha⟩, fun k v hk => absurd hk (Nat.not_lt_zero k)⟩
    · simp only [scanIndex, ha, if_false, Option.map_eq_some'] at h
      obtain ⟨i', hi', rfl⟩ := h
      obtain ⟨⟨u, hu, huid⟩, hfirst⟩ := ih i' hi'
      refine ⟨⟨u, by simpa using hu, huid⟩, ?_⟩
      intro k v hk hv
      cases k with
      | zero =>
        simp only [List.getElem?_cons_zero, Option.some.injEq] at hv
        subst hv; exact ha
      | succ k =>
        simp only [List.getElem?_cons_succ] at hv
        exact hfirst k v (by omega) hv

/-- The collection after `UpdateUser`, by position of the first match. -/
theorem UpdateUser_users (s : UserService) (id : Int) (name email : String) :
    (UpdateUser s id name email).2.users =
      ((scanIndex id s.users).map
        (fun i => updateAt (fun u => { u with Name := name, Email := email }) i s.users)).getD
        s.users := by
  unfold UpdateUser
  rw [scanUpdate_eq_scanIndex]
  cases scanIndex id s.users <;> rfl

/-- The collection after `DeactivateUser`, by position of the first match. -/
theorem DeactivateUser_users (s : UserService) (id : Int) :
    (DeactivateUser s id).2.users =
      ((scanIndex id s.users).map
        (fun i => updateAt (fun u => { u with Active := false }) i s.users)).getD s.users := by
  unfold DeactivateUser
  rw [scanDeactivate_eq_scanIndex]
  cases scanIndex id s.users <;> rfl

theorem UpdateUser_unchanged_of_error (s : UserService) (id : Int) (name email : String)
    (h : (UpdateUser s id name email).1 ≠ none) : (UpdateUser s id name email).2 = s := by
  unfold UpdateUser at h ⊢
  cases hs : scanUpdate id name email s.users with
  | none => rfl
  | some us => simp [hs] at h

theorem DeactivateUser_unchanged_of_error (s : UserService) (id : Int)
    (h : (DeactivateUser s id).1 ≠ none) : (DeactivateUser s id).2 = s := by
  unfold DeactivateUser at h ⊢
  cases hs : scanDeactivate id s.users with
  | none => rfl
  | some us => simp [hs] at h

/-- A write to the first record with the id that keeps the `ID` field touches
that record only. -/
theorem touchesOnly_of_updateAt (id : Int) (s s' : UserService) (f : User → User)
    (hf : ∀ u, (f u).ID = u.ID) (hn : s'.nextID = s.nextID)
    (hu : s'.users = ((scanIndex id s.users).map (fun i => updateAt f i s.users)).getD s.users) :
    TouchesOnly id s s' := by
  cases hi : scanIndex id s.users with
  | none =>
    rw [hi] at hu
    simp only [Option.map_none', Option.getD_none] at hu
    refine ⟨hn, by rw [hu], by rw [hu], ?_, ?_⟩
    · intro j u hj _; rw [hu]; exact hj
    · intro j hj; rw [hu] at hj; exact absurd rfl hj
  | some i =>
    rw [hi] at hu
    simp only [Option.map_some', Option.getD_some] at hu
    obtain ⟨⟨w, hw, hwid⟩, hfirst⟩ := scanIndex_first id s.users i hi
    refine ⟨hn, by rw [hu, updateAt_length], ?_, ?_, ?_⟩
    · apply List.ext_getElem?
      intro j
      rw [hu, List.getElem?_map, List.getElem?_map, getElem?_updateAt]
      by_cases hij : i = j
      · simp only [hij, if_true, Option.map_map]
        cases s.users[j]? <;> simp [hf]
      · simp [hij]
    · intro j u hj hne
      rw [hu, getElem?_updateAt]
      by_cases hij : i = j
      · subst hij
        rw [hw] at hj
        simp only [Option.some.injEq] at hj
        subst hj
        exact absurd hwid hne
      · simp [hij, hj]
    · intro j hj
      rw [hu, getElem?_updateAt] at hj
      by_cases hij : i = j
      · subst hij
        exact ⟨⟨w, hw, hwid⟩, hfirst⟩
      · simp [hij] at hj

theorem UpdateUser_touchesOnly (s : UserService) (id : Int) (name email : String) :
    TouchesOnly id s (UpdateUser s id name email).2 :=
  touchesOnly_of_updateAt id s _ (fun u => { u with Name := name, Email := email })
    (fun _ => rfl) (UpdateUser_nextID s id name email) (UpdateUser_users s id name email)

theorem DeactivateUser_touchesOnly (s : UserService) (id : Int) :
    TouchesOnly id s (DeactivateUser s id).2 :=
  touchesOnly_of_updateAt id s _ (fun u => { u with Active := false })
    (fun _ => rfl) (DeactivateUser_nextID s id) (DeactivateUser_users s id)

/-! ## The handlers, case by case -/

theorem ServeHTTP_get (lib : Lib) (now : Time) (s : UserService) (r : Request)
    (hm : r.Method = "GET") : ServeHTTP lib now s r = handleGetUsers lib s r := by
  simp [ServeHTTP, hm, MethodGet]

theorem ServeHTTP_delete (lib : Lib) (now : Time) (s : UserService) (r : Request)
    (hm : r.Method = "DELETE") : ServeHTTP lib now s r = handleDeactivateUser lib s r := by
  simp [ServeHTTP, hm, MethodGet, MethodPost, MethodPut, MethodDelete]

theorem ServeHTTP_other (lib : Lib) (now : Time) (s : UserService) (r : Request)
    (h1 : r.Method ≠ "GET") (h2 : r.Method ≠ "POST") (h3 : r.Method ≠ "PUT")
    (h4 : r.Method ≠ "DELETE") :
    ServeHTTP lib now s r = ({ Status := 405, Body := .error "Method not allowed" }, s) := by
  simp [ServeHTTP, h1, h2, h3, h4, MethodGet, MethodPost, MethodPut, MethodDelete,
    StatusMethodNotAllowed]

/-- `handleGetUsers` by the value `Get("id")` returns. -/
theorem handleGetUsers_cases (lib : Lib) (s : UserService) (r : Request) :
    (queryGet "id" r.Query = "" →
        handleGetUsers lib s r = ({ Status := 200, Body := .users (GetAllUsers s) }, s)) ∧
      (queryGet "id" r.Query ≠ "" →
        (lib.Atoi (queryGet "id" r.Query) = none →
          handleGetUsers lib s r = ({ Status := 400, Body := .error "Invalid user ID" }, s)) ∧
        ∀ id, lib.Atoi (queryGet "id" r.Query) = some id →
          (id ∉ ids s →
            handleGetUsers lib s r = ({ Status := 404, Body := .error (notFound id) }, s)) ∧
          (id ∈ ids s →
            handleGetUsers lib s r = ({ Status := 200, Body := .user (GetUser s id).1 }, s) ∧
            ∃ u, GetUser s id = (some u, none) ∧ u.ID = id)) := by
  refine ⟨?_, ?_⟩
  · intro hq
    simp [handleGetUsers, hq, StatusOK]
  · intro hq
    refine ⟨?_, ?_⟩
    · intro ha
      simp [handleGetUsers, hq, ha, StatusBadRequest]
    · intro id ha
      refine ⟨?_, ?_⟩
      · intro hid
        simp [handleGetUsers, hq, ha, GetUser_of_not_mem s id hid, StatusNotFound]
      · intro hid
        obtain ⟨u, hu, huid⟩ := scanGet_isSome id s.users hid
        have hg := GetUser_of_scanGet s id u hu
        exact ⟨by simp [handleGetUsers, hq, ha, hg, StatusOK], u, hg, huid⟩

/-- `handleUpdateUser` by the checks it makes, in their order. -/
theorem handleUpdateUser_cases (lib : Lib) (s : UserService) (r : Request) :
    (queryGet "id" r.Query = "" →
        handleUpdateUser lib s r =
          ({ Status := 400, Body := .error "User ID is required" }, s)) ∧
      (queryGet "id" r.Query ≠ "" →
        (lib.Atoi (queryGet "id" r.Query) = none →
          handleUpdateUser lib s r = ({ Status := 400, Body := .error "Invalid user ID" }, s)) ∧
        ∀ id, lib.Atoi (queryGet "id" r.Query) = some id →
          (lib.Decode r.Body = none →
            handleUpdateUser lib s r = ({ Status := 400, Body := .error "Invalid JSON" }, s)) ∧
          ∀ n e, lib.Decode r.Body = some (n, e) →
            (id ∉ ids s →
              handleUpdateUser lib s r =
                ({ Status := 404, Body := .error (notFound id) }, s)) ∧
            (id ∈ ids s →
              handleUpdateUser lib s r =
                ({ Status := 200, Body := .text "User updated successfully" },
                  (UpdateUser s id n e).2))) := by
  refine ⟨?_, ?_⟩
  · intro hq
    simp [handleUpdateUser, hq, StatusBadRequest]
  · intro hq
    refine ⟨?_, ?_⟩
    · intro ha
      simp [handleUpdateUser, hq, ha, StatusBadRequest]
    · intro id ha
      refine ⟨?_, ?_⟩
      · intro hd
        simp [handleUpdateUser, hq, ha, hd, StatusBadRequest]
      · intro n e hd
        refine ⟨?_, ?_⟩
        · intro hid
          simp [handleUpdateUser, hq, ha, hd, UpdateUser_of_not_mem s id n e hid, StatusNotFound]
        · intro hid
          exact handleUpdateUser_of_mem lib s r id n e hq ha hd hid

/-- `handleDeactivateUser` by the checks it makes, in their order. -/
theorem handleDeactivateUser_cases (lib : Lib) (s : UserService) (r : Request) :
    (queryGet "id" r.Query = "" →
        handleDeactivateUser lib s r =
          ({ Status := 400, Body := .error "User ID is required" }, s)) ∧
      (queryGet "id" r.Query ≠ "" →
        (lib.Atoi (queryGet "id" r.Query) = none →
          handleDeactivateUser lib s r =
            ({ Status := 400, Body := .error "Invalid user ID" }, s)) ∧
        ∀ id, lib.Atoi (queryGet "id" r.Query) = some id →
          (id ∉ ids s →
            handleDeactivateUser lib s r =
              ({ Status := 404, Body := .error (notFound id) }, s)) ∧
          (id ∈ ids s →
            handleDeactivateUser lib s r =
              ({ Status := 200, Body := .text "User deactivated successfully" },
                (DeactivateUser s id).2))) := by
  refine ⟨?_, ?_⟩
  · intro hq
    simp [handleDeactivateUser, hq, StatusBadRequest]
  · intro hq
    refine ⟨?_, ?_⟩
    · intro ha
      simp [handleDeactivateUser, hq, ha, StatusBadRequest]
    · intro id ha
      refine ⟨?_, ?_⟩
      · intro hid
        simp [handleDeactivateUser, hq, ha, DeactivateUser_of_not_mem s id hid, StatusNotFound]
      · intro hid
        have h1 := (DeactivateUser_of_mem s id hid).1
        unfold handleDeactivateUser
        simp only [hq, if_false, ha]
        cases hu : DeactivateUser s id with
        | mk err s' =>
          rw [hu] at h1
          simp only at h1
          subst h1
          rfl

/-- `handleCreateUser` by the checks it makes, in their order. -/
theorem handleCreateUser_cases (lib : Lib) (now : Time) (s : UserService) (r : Request) :
    (lib.Decode r.Body = none →
        handleCreateUser lib now s r = ({ Status := 400, Body := .error "Invalid JSON" }, s)) ∧
      ∀ name email, lib.Decode r.Body = some (name, email) →
        ((name = "" ∨ email = "") →
          handleCreateUser lib now s r =
            ({ Status := 400, Body := .error "Name and email are required" }, s)) ∧
        (¬ (name = "" ∨ email = "") →
          handleCreateUser lib now s r =
            ({ Status := 201, Body := .user (some (CreateUser s name email now).1) },
              (CreateUser s name email now).2)) := by
  refine ⟨?_, ?_⟩
  · intro hd
    simp [handleCreateUser, hd, StatusBadRequest]
  · intro name email hd
    refine ⟨?_, ?_⟩
    · intro he
      simp [handleCreateUser, hd, he, StatusBadRequest]
    · intro hne
      simp only [handleCreateUser, hd, hne, if_false, StatusCreated]

/-! ## Records kept, inactive records kept inactive -/

theorem scanDeactivate_idem (id : Int) (us us' : List User)
    (h : scanDeactivate id us = some us') : scanDeactivate id us' = some us' := by
  induction us generalizing us' with
  | nil => simp [scanDeactivate] at h
  | cons u rest ih =>
    by_cases hu : u.ID = id
    · simp only [scanDeactivate, hu, if_true, Option.some.injEq] at h
      subst h
      simp [scanDeactivate, hu]
    · simp only [scanDeactivate, hu, if_false, Option.map_eq_some'] at h
      obtain ⟨r, hr, rfl⟩ := h
      simp [scanDeactivate, hu, ih r hr]

theorem keepsRecords_refl (s : UserService) : KeepsRecords s s :=
  ⟨Nat.le_refl _, fun _ u h => ⟨u, h, rfl, rfl⟩⟩

theorem keepsRecords_trans (s₁ s₂ s₃ : UserService) (h₁ : KeepsRecords s₁ s₂)
    (h₂ : KeepsRecords s₂ s₃) : KeepsRecords s₁ s₃ := by
  refine ⟨Nat.le_trans h₁.1 h₂.1, ?_⟩
  intro i u hu
  obtain ⟨u', hu', hid, hc⟩ := h₁.2 i u hu
  obtain ⟨u'', hu'', hid', hc'⟩ := h₂.2 i u' hu'
  exact ⟨u'', hu'', hid'.trans hid, hc'.trans hc⟩

/-- A collection whose ids and creation times extend those of `s` keeps the
records of `s`. -/
theorem keepsRecords_of_keys (s s' : UserService) (extra : List (Int × Time))
    (h : s'.users.map (fun u => (u.ID, u.CreatedAt)) =
      s.users.map (fun u => (u.ID, u.CreatedAt)) ++ extra) : KeepsRecords s s' := by
  have hlen := congrArg List.length h
  simp only [List.length_map, List.length_append] at hlen
  refine ⟨by omega, ?_⟩
  intro i u hu
  have hi : i < s.users.length := (List.getElem?_eq_some.mp hu).1
  have h1 := congrArg (fun l => l[i]?) h
  simp only [List.getElem?_map, hu, Option.map_some'] at h1
  rw [List.getElem?_append_left (by simpa using hi)] at h1
  simp only [List.getElem?_map, hu, Option.map_some'] at h1
  cases hu' : s'.users[i]? with
  | none => simp [hu'] at h1
  | some u' =>
    simp only [hu', Option.map_some', Option.some.injEq, Prod.mk.injEq] at h1
    exact ⟨u', rfl, h1.1, h1.2⟩

theorem keepsRecords_applyOp (s : UserService) (op : Op) : KeepsRecords s (applyOp s op).1 :=
  keepsRecords_of_keys s _ _ (applyOp_keys s op)

theorem keepsRecords_runOps (ops : List Op) (s : UserService) :
    KeepsRecords s (runOps s ops).1 :=
  keepsRecords_of_keys s _ _ (runOps_keys ops s)

theorem staysInactive_refl (s : UserService) : StaysInactive s s :=
  fun _ u h ha => ⟨u, h, rfl, ha⟩

theorem staysInactive_trans (s₁ s₂ s₃ : UserService) (h₁ : StaysInactive s₁ s₂)
    (h₂ : StaysInactive s₂ s₃) : StaysInactive s₁ s₃ := by
  intro i u hu ha
  obtain ⟨u', hu', hid, ha'⟩ := h₁ i u hu ha
  obtain ⟨u'', hu'', hid', ha''⟩ := h₂ i u' hu' ha'
  exact ⟨u'', hu'', hid'.trans hid, ha''⟩

theorem staysInactive_create (s : UserService) (name email : String) (now : Time) :
    StaysInactive s (CreateUser s name email now).2 := by
  intro i u hu ha
  have hi : i < s.users.length := (List.getElem?_eq_some.mp hu).1
  refine ⟨u, ?_, rfl, ha⟩
  simp only [CreateUser]
  rw [List.getElem?_append_left hi]
  exact hu

/-- A write at one position that keeps `ID` and does not set `Active` keeps the
inactive records inactive. -/
theorem staysInactive_of_updateAt (s s' : UserService) (o : Option Nat) (f : User → User)
    (hf : ∀ u, (f u).ID = u.ID ∧ (u.Active = false → (f u).Active = false))
    (hu : s'.users = (o.map (fun i => updateAt f i s.users)).getD s.users) :
    StaysInactive s s' := by
  intro j u hj ha
  cases o with
  | none =>
    simp only [Option.map_none', Option.getD_none] at hu
    exact ⟨u, by rw [hu]; exact hj, rfl, ha⟩
  | some i =>
    simp only [Option.map_some', Option.getD_some] at hu
    by_cases hij : i = j
    · refine ⟨f u, ?_, (hf u).1, (hf u).2 ha⟩
      rw [hu, getElem?_updateAt]
      simp [hij, hj]
    · refine ⟨u, ?_, rfl, ha⟩
      rw [hu, getElem?_updateAt]
      simp [hij, hj]

theorem staysInactive_update (s : UserService) (id : Int) (name email : String) :
    StaysInactive s (UpdateUser s id name email).2 :=
  staysInactive_of_updateAt s _ (scanIndex id s.users)
    (fun u => { u with Name := name, Email := email }) (fun _ => ⟨rfl, fun h => h⟩)
    (UpdateUser_users s id name email)

theorem staysInactive_deactivate (s : UserService) (id : Int) :
    StaysInactive s (DeactivateUser s id).2 :=
  staysInactive_of_updateAt s _ (scanIndex id s.users)
    (fun u => { u with Active := false }) (fun _ => ⟨rfl, fun _ => rfl⟩)
    (DeactivateUser_users s id)

theorem staysInactive_applyOp (s : UserService) (op : Op) :
    StaysInactive s (applyOp s op).1 := by
  cases op with
  | create name email now => exact staysInactive_create s name email now
  | get id => exact staysInactive_refl s
  | getAll => exact staysInactive_refl s
  | update id name email => exact staysInactive_update s id name email
  | deactivate id => exact staysInactive_deactivate s id

theorem staysInactive_runOps (ops : List Op) (s : UserService) :
    StaysInactive s (runOps s ops).1 := by
  induction ops generalizing s with
  | nil => exact staysInactive_refl s
  | cons op ops ih =>
    exact staysInactive_trans s _ _ (staysInactive_applyOp s op) (ih (applyOp s op).1)

/-- What a request can do to the service is what one registry call can do. -/
theorem ServeHTTP_state (lib : Lib) (now : Time) (s : UserService) (r : Request) :
    ∃ op, (ServeHTTP lib now s r).2 = (applyOp s op).1 := by
  by_cases h1 : r.Method = "GET"
  · rw [ServeHTTP_get lib now s r h1]
    refine ⟨.getAll, ?_⟩
    by_cases hq : queryGet "id" r.Query = ""
    · rw [(handleGetUsers_cases lib s r).1 hq]; rfl
    · cases ha : lib.Atoi (queryGet "id" r.Query) with
      | none => rw [((handleGetUsers_cases lib s r).2 hq).1 ha]; rfl
      | some id =>
        by_cases hid : id ∈ ids s
        · rw [((((handleGetUsers_cases lib s r).2 hq).2 id ha).2 hid).1]; rfl
        · rw [(((handleGetUsers_cases lib s r).2 hq).2 id ha).1 hid]; rfl
  · by_cases h2 : r.Method = "POST"
    · rw [ServeHTTP_post lib now s r h2]
      cases hd : lib.Decode r.Body with
      | none => exact ⟨.getAll, by rw [(handleCreateUser_cases lib now s r).1 hd]; rfl⟩
      | some p =>
        obtain ⟨name, email⟩ := p
        by_cases he : name = "" ∨ email = ""
        · exact ⟨.getAll, by rw [((handleCreateUser_cases lib now s r).2 name email hd).1 he]; rfl⟩
        · exact ⟨.create name email now,
            by rw [((handleCreateUser_cases lib now s r).2 name email hd).2 he]; rfl⟩
    · by_cases h3 : r.Method = "PUT"
      · rw [ServeHTTP_put lib now s r h3]
        by_cases hq : queryGet "id" r.Query = ""
        · exact ⟨.getAll, by rw [(handleUpdateUser_cases lib s r).1 hq]; rfl⟩
        · cases ha : lib.Atoi (queryGet "id" r.Query) with
          | none => exact ⟨.getAll, by rw [((handleUpdateUser_cases lib s r).2 hq).1 ha]; rfl⟩
          | some id =>
            cases hd : lib.Decode r.Body with
            | none =>
              exact ⟨.getAll,
                by rw [(((handleUpdateUser_cases lib s r).2 hq).2 id ha).1 hd]; rfl⟩
            | some p =>
              obtain ⟨n, e⟩ := p
              by_cases hid : id ∈ ids s
              · exact ⟨.update id n e,
                  by rw [((((handleUpdateUser_cases lib s r).2 hq).2 id ha).2 n e hd).2 hid]; rfl⟩
              · exact ⟨.getAll,
                  by rw [((((handleUpdateUser_cases lib s r).2 hq).2 id ha).2 n e hd).1 hid]; rfl⟩
      · by_cases h4 : r.Method = "DELETE"
        · rw [ServeHTTP_delete lib now s r h4]
          by_cases hq : queryGet "id" r.Query = ""
          · exact ⟨.getAll, by rw [(handleDeactivateUser_cases lib s r).1 hq]; rfl⟩
          · cases ha : lib.Atoi (queryGet "id" r.Query) with
            | none =>
              exact ⟨.getAll, by rw [((handleDeactivateUser_cases lib s r).2 hq).1 ha]; rfl⟩
            | some id =>
              by_cases hid : id ∈ ids s
              · exact ⟨.deactivate id,
                  by rw [(((handleDeactivateUser_cases lib s r).2 hq).2 id ha).2 hid]; rfl⟩
              · exact ⟨.getAll,
                  by rw [(((handleDeactivateUser_cases lib s r).2 hq).2 id ha).1 hid]; rfl⟩
        · exact ⟨.getAll, by rw [ServeHTTP_other lib now s r h1 h2 h3 h4]; rfl⟩

theorem staysInactive_ServeHTTP (lib : Lib) (now : Time) (s : UserService) (r : Request) :
    StaysInactive s (ServeHTTP lib now s r).2 := by
  obtain ⟨op, hop⟩ := ServeHTTP_state lib now s r
  rw [hop]
  exact staysInactive_applyOp s op

theorem staysInactive_serveAll (lib : Lib) (rs : List (Time × Request)) (s : UserService) :
    StaysInactive s (serveAll lib s rs) := by
  induction rs generalizing s with
  | nil => exact staysInactive_refl s
  | cons p rest ih =>
    obtain ⟨now, r⟩ := p
    exact staysInactive_trans s _ _ (staysInactive_ServeHTTP lib now s r) (ih _)

theorem queryGet_of_not_has (key : String) (q : List (String × String))
    (h : queryHas key q = false) : queryGet key q = "" := by
  induction q with
  | nil => rfl
  | cons p rest ih =>
    obtain ⟨k, v⟩ := p
    by_cases hk : k = key
    · simp [queryHas, hk] at h
    · simp only [queryHas, hk, if_false] at h
      simp [queryGet, hk, ih h]

/-! ## The handler: decision order of `PUT` and `GET` -/

/-- C11 as stated, at the request `PUT /users?id=`.  The `id` parameter is in the
query string and its value, the empty string, is not an integer; the answer is
400 `User ID is required`, not 400 `Invalid user ID`. -/
theorem put_empty_id_not_invalid :
    queryHas "id" [("id", "")] = true ∧
      sampleLib.Atoi (queryGet "id" [("id", "")]) = none ∧
      (ServeHTTP sampleLib 300 sampleService
          { Method := "PUT", Query := [("id", "")], Body := "Robert,rob@x.com" }).1 =
        { Status := 400, Body := .error "User ID is required" } ∧
      (ServeHTTP sampleLib 300 sampleService
          { Method := "PUT", Query := [("id", "")], Body := "Robert,rob@x.com" }).1 ≠
        { Status := 400, Body := .error "Invalid user ID" } := by
  decide

/-- C11, amended.  For every state of the service and every `PUT` request the
answer is decided in this order: `id` parameter missing or empty, 400
`User ID is required`; value not an integer, 400 `Invalid user ID`; body not
decodable, 400 `Invalid JSON`; no record with the id, 404
`user with ID <id> not found`; otherwise 200 `User updated successfully`, and
the record `GetUser id` returns carries the name and email of the body.  The
service is unchanged in all cases but the last. -/
theorem put_decision_order (lib : Lib) (now : Time) (s : UserService) (r : Request)
    (hm : r.Method = "PUT") :
    ((queryHas "id" r.Query = false ∨ queryGet "id" r.Query = "") →
        ServeHTTP lib now s r =
          ({ Status := 400, Body := .error "User ID is required" }, s)) ∧
      (queryGet "id" r.Query ≠ "" → lib.Atoi (queryGet "id" r.Query) = none →
        ServeHTTP lib now s r = ({ Status := 400, Body := .error "Invalid user ID" }, s)) ∧
      (∀ id, queryGet "id" r.Query ≠ "" → lib.Atoi (queryGet "id" r.Query) = some id →
        lib.Decode r.Body = none →
        ServeHTTP lib now s r = ({ Status := 400, Body := .error "Invalid JSON" }, s)) ∧
      (∀ id n e, queryGet "id" r.Query ≠ "" → lib.Atoi (queryGet "id" r.Query) = some id →
        lib.Decode r.Body = some (n, e) → id ∉ ids s →
        ServeHTTP lib now s r = ({ Status := 404, Body := .error (notFound id) }, s)) ∧
      (∀ id n e, queryGet "id" r.Query ≠ "" → lib.Atoi (queryGet "id" r.Query) = some id →
        lib.Decode r.Body = some (n, e) → id ∈ ids s →
        ServeHTTP lib now s r =
            ({ Status := 200, Body := .text "User updated successfully" },
              (UpdateUser s id n e).2) ∧
          ∃ u, GetUser s id = (some u, none) ∧
            GetUser (ServeHTTP lib now s r).2 id =
              (some { ID := u.ID, Name := n, Email := e, CreatedAt := u.CreatedAt,
                      Active := u.Active }, none)) := by
  rw [ServeHTTP_put lib now s r hm]
  have hc := handleUpdateUser_cases lib s r
  refine ⟨?_, ?_, ?_, ?_, ?_⟩
  · intro h
    cases h with
    | inl h => exact hc.1 (queryGet_of_not_has "id" r.Query h)
    | inr h => exact hc.1 h
  · intro hq ha
    exact (hc.2 hq).1 ha
  · intro id hq ha hd
    exact (((hc.2 hq).2 id ha).1 hd)
  · intro id n e hq ha hd hid
    exact ((((hc.2 hq).2 id ha).2 n e hd).1 hid)
  · intro id n e hq ha hd hid
    have h := (((hc.2 hq).2 id ha).2 n e hd).2 hid
    rw [h]
    exact ⟨rfl, (UpdateUser_of_mem s id n e hid).2⟩

/-- The five outcomes of `PUT` on `sampleService`. -/
theorem put_decision_order_witness :
    (ServeHTTP sampleLib 300 sampleService
          { Method := "PUT", Query := [], Body := "Robert,rob@x.com" } =
        ({ Status := 400, Body := .error "User ID is required" }, sampleService)) ∧
      (ServeHTTP sampleLib 300 sampleService
          { Method := "PUT", Query := [("id", "two")], Body := "Robert,rob@x.com" } =
        ({ Status := 400, Body := .error "Invalid user ID" }, sampleService)) ∧
      (ServeHTTP sampleLib 300 sampleService
          { Method := "PUT", Query := [("id", "2")], Body := "no comma" } =
        ({ Status := 400, Body := .error "Invalid JSON" }, sampleService)) ∧
      (ServeHTTP sampleLib 300 sampleService
          { Method := "PUT", Query := [("id", "99")], Body := "Robert,rob@x.com" } =
        ({ Status := 404, Body := .error "user with ID 99 not found" }, sampleService)) ∧
      (ServeHTTP sampleLib 300 sampleService
            { Method := "PUT", Query := [("id", "2")], Body := "Robert,rob@x.com" } =
          ({ Status := 200, Body := .text "User updated successfully" },
            (UpdateUser sampleService 2 "Robert" "rob@x.com").2) ∧
        ∃ u, GetUser sampleService 2 = (some u, none) ∧
          GetUser (ServeHTTP sampleLib 300 sampleService
              { Method := "PUT", Query := [("id", "2")], Body := "Robert,rob@x.com" }).2 2 =
            (some { ID := u.ID, Name := "Robert", Email := "rob@x.com",
                    CreatedAt := u.CreatedAt, Active := u.Active }, none)) :=
  ⟨(put_decision_order sampleLib 300 sampleService
      { Method := "PUT", Query := [], Body := "Robert,rob@x.com" } rfl).1 (Or.inl (by decide)),
    (put_decision_order sampleLib 300 sampleService
      { Method := "PUT", Query := [("id", "two")], Body := "Robert,rob@x.com" } rfl).2.1
      (by decide) (by decide),
    (put_decision_order sampleLib 300 sampleService
      { Method := "PUT", Query := [("id", "2")], Body := "no comma" } rfl).2.2.1 2
      (by decide) (by decide) (by decide),
    (put_decision_order sampleLib 300 sampleService
      { Method := "PUT", Query := [("id", "99")], Body := "Robert,rob@x.com" } rfl).2.2.2.1 99
      "Robert" "rob@x.com" (by decide) (by decide) (by decide) (by decide),
    (put_decision_order sampleLib 300 sampleService
      { Method := "PUT", Query := [("id", "2")], Body := "Robert,rob@x.com" } rfl).2.2.2.2 2
      "Robert" "rob@x.com" (by decide) (by decide) (by decide) (by decide)⟩

/-- C12 as stated, at the request `GET /users?id=`.  The `id` parameter is in the
query string and its value, the empty string, is not an integer; the answer is
200 with the full list, not 400. -/
theorem get_empty_id_lists_all :
    queryHas "id" [("id", "")] = true ∧
      sampleLib.Atoi (queryGet "id" [("id", "")]) = none ∧
      (ServeHTTP sampleLib 300 sampleService
          { Method := "GET", Query := [("id", "")], Body := "" }).1 =
        { Status := 200, Body := .users (GetAllUsers sampleService) } ∧
      (ServeHTTP sampleLib 300 sampleService
          { Method := "GET", Query := [("id", "")], Body := "" }).1.Status ≠ 400 := by
  decide

/-- C12, amended.  For every state of the service and every `GET` request: if
the `id` parameter has a non-empty value, a value that is not an integer is
answered 400 `Invalid user ID`, an integer held by no record 404 with the
not-found text, and an integer held by a record 200 with exactly the record
`GetUser id` returns; if the `id` parameter is absent or its value is empty,
the answer is 200 with the list `GetAllUsers` returns (the empty list when no
records exist).  The service is unchanged in every case. -/
theorem get_decision_order (lib : Lib) (now : Time) (s : UserService) (r : Request)
    (hm : r.Method = "GET") :
    ((queryHas "id" r.Query = false ∨ queryGet "id" r.Query = "") →
        ServeHTTP lib now s r = ({ Status := 200, Body := .users (GetAllUsers s) }, s) ∧
        (s.users = [] → (ServeHTTP lib now s r).1.Body = .users [])) ∧
      (queryGet "id" r.Query ≠ "" → lib.Atoi (queryGet "id" r.Query) = none →
        ServeHTTP lib now s r = ({ Status := 400, Body := .error "Invalid user ID" }, s)) ∧
      (∀ id, queryGet "id" r.Query ≠ "" → lib.Atoi (queryGet "id" r.Query) = some id →
        id ∉ ids s →
        ServeHTTP lib now s r = ({ Status := 404, Body := .error (notFound id) }, s)) ∧
      (∀ id, queryGet "id" r.Query ≠ "" → lib.Atoi (queryGet "id" r.Query) = some id →
        id ∈ ids s →
        ServeHTTP lib now s r = ({ Status := 200, Body := .user (GetUser s id).1 }, s) ∧
          ∃ u, GetUser s id = (some u, none) ∧ u.ID = id) := by
  rw [ServeHTTP_get lib now s r hm]
  have hc := handleGetUsers_cases lib s r
  refine ⟨?_, ?_, ?_, ?_⟩
  · intro h
    have hq : queryGet "id" r.Query = "" := by
      cases h with
      | inl h => exact queryGet_of_not_has "id" r.Query h
      | inr h => exact h
    rw [hc.1 hq]
    exact ⟨rfl, fun he => by simp [GetAllUsers, he]⟩
  · intro hq ha
    exact (hc.2 hq).1 ha
  · intro id hq ha hid
    exact ((hc.2 hq).2 id ha).1 hid
  · intro id hq ha hid
    exact ((hc.2 hq).2 id ha).2 hid

/-- The outcomes of `GET` on `sampleService` and on a fresh service. -/
theorem get_decision_order_witness :
    (ServeHTTP sampleLib 300 sampleService { Method := "GET", Query := [], Body := "" } =
          ({ Status := 200, Body := .users (GetAllUsers sampleService) }, sampleService) ∧
        (sampleService.users = [] →
          (ServeHTTP sampleLib 300 sampleService
            { Method := "GET", Query := [], Body := "" }).1.Body = .users [])) ∧
      (ServeHTTP sampleLib 300 NewUserService { Method := "GET", Query := [], Body := "" }).1.Body =
        .users [] ∧
      (ServeHTTP sampleLib 300 sampleService
          { Method := "GET", Query := [("id", "two")], Body := "" } =
        ({ Status := 400, Body := .error "Invalid user ID" }, sampleService)) ∧
      (ServeHTTP sampleLib 300 sampleService
          { Method := "GET", Query := [("id", "99")], Body := "" } =
        ({ Status := 404, Body := .error "user with ID 99 not found" }, sampleService)) ∧
      (ServeHTTP sampleLib 300 sampleService
            { Method := "GET", Query := [("id", "2")], Body := "" } =
          ({ Status := 200, Body := .user (GetUser sampleService 2).1 }, sampleService) ∧
        ∃ u, GetUser sampleService 2 = (some u, none) ∧ u.ID = 2) :=
  ⟨(get_decision_order sampleLib 300 sampleService
      { Method := "GET", Query := [], Body := "" } rfl).1 (Or.inl (by decide)),
    ((get_decision_order sampleLib 300 NewUserService
      { Method := "GET", Query := [], Body := "" } rfl).1 (Or.inl (by decide))).2 rfl,
    (get_decision_order sampleLib 300 sampleService
      { Method := "GET", Query := [("id", "two")], Body := "" } rfl).2.1 (by decide) (by decide),
    (get_decision_order sampleLib 300 sampleService
      { Method := "GET", Query := [("id", "99")], Body := "" } rfl).2.2.1 99
      (by decide) (by decide) (by decide),
    (get_decision_order sampleLib 300 sampleService
      { Method := "GET", Query := [("id", "2")], Body := "" } rfl).2.2.2 2
      (by decide) (by decide) (by decide)⟩

/-! ## Dispatch -/

/-- C13. Dispatch is total and exclusive: for every request, method `GET` runs
`handleGetUsers`, `POST` runs `handleCreateUser`, `PUT` runs `handleUpdateUser`,
`DELETE` runs `handleDeactivateUser`, and every other method string is answered
405 `Method not allowed` with the service unchanged. -/
theorem dispatch_total_exclusive (lib : Lib) (now : Time) (s : UserService) (r : Request) :
    (r.Method = "GET" → ServeHTTP lib now s r = handleGetUsers lib s r) ∧
      (r.Method = "POST" → ServeHTTP lib now s r = handleCreateUser lib now s r) ∧
      (r.Method = "PUT" → ServeHTTP lib now s r = handleUpdateUser lib s r) ∧
      (r.Method = "DELETE" → ServeHTTP lib now s r = handleDeactivateUser lib s r) ∧
      (r.Method ≠ "GET" → r.Method ≠ "POST" → r.Method ≠ "PUT" → r.Method ≠ "DELETE" →
        ServeHTTP lib now s r = ({ Status := 405, Body := .error "Method not allowed" }, s)) :=
  ⟨ServeHTTP_get lib now s r, ServeHTTP_post lib now s r, ServeHTTP_put lib now s r,
    ServeHTTP_delete lib now s r, ServeHTTP_other lib now s r⟩

/-- Lower-case `get`, `HEAD`, `PATCH`, `OPTIONS` and the empty method are
answered 405 on `sampleService`; `DELETE` runs the deactivation handler. -/
theorem dispatch_total_exclusive_witness :
    (ServeHTTP sampleLib 300 sampleService { Method := "get", Query := [], Body := "" } =
        ({ Status := 405, Body := .error "Method not allowed" }, sampleService)) ∧
      (ServeHTTP sampleLib 300 sampleService { Method := "HEAD", Query := [], Body := "" } =
        ({ Status := 405, Body := .error "Method not allowed" }, sampleService)) ∧
      (ServeHTTP sampleLib 300 sampleService
          { Method := "PATCH", Query := [("id", "1")], Body := "a,b" } =
        ({ Status := 405, Body := .error "Method not allowed" }, sampleService)) ∧
      (ServeHTTP sampleLib 300 sampleService { Method := "OPTIONS", Query := [], Body := "" } =
        ({ Status := 405, Body := .error "Method not allowed" }, sampleService)) ∧
      (ServeHTTP sampleLib 300 sampleService { Method := "", Query := [], Body := "" } =
        ({ Status := 405, Body := .error "Method not allowed" }, sampleService)) ∧
      (ServeHTTP sampleLib 300 sampleService
          { Method := "DELETE", Query := [("id", "1")], Body := "" } =
        handleDeactivateUser sampleLib sampleService
          { Method := "DELETE", Query := [("id", "1")], Body := "" }) :=
  ⟨(dispatch_total_exclusive sampleLib 300 sampleService
      { Method := "get", Query := [], Body := "" }).2.2.2.2
      (by decide) (by decide) (by decide) (by decide),
    (dispatch_total_exclusive sampleLib 300 sampleService
      { Method := "HEAD", Query := [], Body := "" }).2.2.2.2
      (by decide) (by decide) (by decide) (by decide),
    (dispatch_total_exclusive sampleLib 300 sampleService
      { Method := "PATCH", Query := [("id", "1")], Body := "a,b" }).2.2.2.2
      (by decide) (by decide) (by decide) (by decide),
    (dispatch_total_exclusive sampleLib 300 sampleService
      { Method := "OPTIONS", Query := [], Body := "" }).2.2.2.2
      (by decide) (by decide) (by decide) (by decide),
    (dispatch_total_exclusive sampleLib 300 sampleService
      { Method := "", Query := [], Body := "" }).2.2.2.2
      (by decide) (by decide) (by decide) (by decide),
    (dispatch_total_exclusive sampleLib 300 sampleService
      { Method := "DELETE", Query := [("id", "1")], Body := "" }).2.2.2.1 rfl⟩

/-! ## Deactivation, records and the active flag -/

/-- C14. `DeactivateUser` is idempotent: for every state of the service
(reachable or not) and every id held by some record, the call returns no
error, a second call returns no error either, and the service after the second
call is the service after the first. -/
theorem deactivateUser_idempotent (s : UserService) (id : Int) (hid : id ∈ ids s) :
    (DeactivateUser s id).1 = none ∧
      (DeactivateUser (DeactivateUser s id).2 id).1 = none ∧
      (DeactivateUser (DeactivateUser s id).2 id).2 = (DeactivateUser s id).2 := by
  obtain ⟨u, hu, -⟩ := scanGet_isSome id s.users hid
  obtain ⟨us', hde, -⟩ := scanGet_scanDeactivate id s.users u hu
  have h2 := scanDeactivate_idem id s.users us' hde
  simp [DeactivateUser, hde, h2]

/-- Record 1 of `sampleService` is active and record 2 is already inactive. -/
theorem deactivateUser_idempotent_witness :
    (1 ∈ ids sampleService ∧
        (DeactivateUser sampleService 1).1 = none ∧
        (DeactivateUser (DeactivateUser sampleService 1).2 1).1 = none ∧
        (DeactivateUser (DeactivateUser sampleService 1).2 1).2 =
          (DeactivateUser sampleService 1).2) ∧
      (2 ∈ ids sampleService ∧
        (DeactivateUser sampleService 2).1 = none ∧
        (DeactivateUser (DeactivateUser sampleService 2).2 2).1 = none ∧
        (DeactivateUser (DeactivateUser sampleService 2).2 2).2 =
          (DeactivateUser sampleService 2).2) :=
  ⟨⟨by decide, deactivateUser_idempotent sampleService 1 (by decide)⟩,
    ⟨by decide, deactivateUser_idempotent sampleService 2 (by decide)⟩⟩

/-- C15. The active flag is one-way.  The record `CreateUser` returns and
appends has `Active = true`; and after any registry call, any request handled
by `ServeHTTP` (whatever its method), any sequence of registry calls and any
sequence of requests, every record that was inactive before is still there, at
its position and with its id, and is still inactive. -/
theorem active_flag_one_way (lib : Lib) (now : Time) (s : UserService) :
    (∀ name email, (CreateUser s name email now).1.Active = true ∧
        (CreateUser s name email now).2.users = s.users ++ [(CreateUser s name email now).1]) ∧
      (∀ op, StaysInactive s (applyOp s op).1) ∧
      (∀ r, StaysInactive s (ServeHTTP lib now s r).2) ∧
      (∀ ops, StaysInactive s (runOps s ops).1) ∧
      (∀ rs, StaysInactive s (serveAll lib s rs)) :=
  ⟨fun _ _ => ⟨rfl, rfl⟩, staysInactive_applyOp s, staysInactive_ServeHTTP lib now s,
    fun ops => staysInactive_runOps ops s, fun rs => staysInactive_serveAll lib rs s⟩

/-- Record 2 of `sampleService` is inactive; it is still inactive after a `PUT`
on it followed by a `POST`. -/
theorem active_flag_one_way_witness :
    ∃ u', (serveAll sampleLib sampleService
        [(300, { Method := "PUT", Query := [("id", "2")], Body := "Robert,rob@x.com" }),
          (301, { Method := "POST", Query := [], Body := "Dora,d@x.com" })]).users[1]? =
          some u' ∧
      u'.ID = 2 ∧ u'.Active = false :=
  (active_flag_one_way sampleLib 300 sampleService).2.2.2.2
    [(300, { Method := "PUT", Query := [("id", "2")], Body := "Robert,rob@x.com" }),
      (301, { Method := "POST", Query := [], Body := "Dora,d@x.com" })]
    1 { ID := 2, Name := "Bob Smith", Email := "bob@example.com", CreatedAt := 100,
        Active := false } (by decide) rfl

/-- C16. Records are never removed and their identity is immutable: after
`CreateUser`, `UpdateUser` or `DeactivateUser` (successful or failing), and
after any sequence of registry calls, every record present before is still
present at the same position with the same `ID` and the same `CreatedAt`, and
the collection is at least as long as before. -/
theorem records_never_removed (s : UserService) :
    (∀ name email now, KeepsRecords s (CreateUser s name email now).2) ∧
      (∀ id name email, KeepsRecords s (UpdateUser s id name email).2) ∧
      (∀ id, KeepsRecords s (DeactivateUser s id).2) ∧
      (∀ ops, KeepsRecords s (runOps s ops).1) :=
  ⟨fun name email now => keepsRecords_applyOp s (.create name email now),
    fun id name email => keepsRecords_applyOp s (.update id name email),
    fun id => keepsRecords_applyOp s (.deactivate id),
    fun ops => keepsRecords_runOps ops s⟩

/-- The first record of `sampleService` keeps its id and creation time through
an update that hits it. -/
theorem records_never_removed_witness :
    ∃ u', (UpdateUser sampleService 1 "Al" "al@x.com").2.users[0]? = some u' ∧
      u'.ID = 1 ∧ u'.CreatedAt = 100 :=
  ((records_never_removed sampleService).2.1 1 "Al" "al@x.com").2 0
    { ID := 1, Name := "Alicia", Email := "a2@x.com", CreatedAt := 100, Active := true }
    (by decide)

/-! ## Errors leave the service as it is -/

theorem handleGetUsers_unchanged (lib : Lib) (s : UserService) (r : Request) :
    (handleGetUsers lib s r).2 = s := by
  have hc := handleGetUsers_cases lib s r
  by_cases hq : queryGet "id" r.Query = ""
  · rw [hc.1 hq]
  · cases ha : lib.Atoi (queryGet "id" r.Query) with
    | none => rw [(hc.2 hq).1 ha]
    | some id =>
      by_cases hid : id ∈ ids s
      · rw [(((hc.2 hq).2 id ha).2 hid).1]
      · rw [((hc.2 hq).2 id ha).1 hid]

theorem handleCreateUser_unchanged_or_created (lib : Lib) (now : Time) (s : UserService)
    (r : Request) :
    (handleCreateUser lib now s r).2 = s ∨ (handleCreateUser lib now s r).1.Status = 201 := by
  have hc := handleCreateUser_cases lib now s r
  cases hd : lib.Decode r.Body with
  | none => left; rw [hc.1 hd]
  | some p =>
    obtain ⟨name, email⟩ := p
    by_cases he : name = "" ∨ email = ""
    · left; rw [(hc.2 name email hd).1 he]
    · right; rw [(hc.2 name email hd).2 he]

theorem handleUpdateUser_unchanged_or_ok (lib : Lib) (s : UserService) (r : Request) :
    (handleUpdateUser lib s r).2 = s ∨ (handleUpdateUser lib s r).1.Status = 200 := by
  have hc := handleUpdateUser_cases lib s r
  by_cases hq : queryGet "id" r.Query = ""
  · left; rw [hc.1 hq]
  · cases ha : lib.Atoi (queryGet "id" r.Query) with
    | none => left; rw [(hc.2 hq).1 ha]
    | some id =>
      cases hd : lib.Decode r.Body with
      | none => left; rw [((hc.2 hq).2 id ha).1 hd]
      | some p =>
        obtain ⟨n, e⟩ := p
        by_cases hid : id ∈ ids s
        · right; rw [(((hc.2 hq).2 id ha).2 n e hd).2 hid]
        · left; rw [(((hc.2 hq).2 id ha).2 n e hd).1 hid]

theorem handleDeactivateUser_unchanged_or_ok (lib : Lib) (s : UserService) (r : Request) :
    (handleDeactivateUser lib s r).2 = s ∨ (handleDeactivateUser lib s r).1.Status = 200 := by
  have hc := handleDeactivateUser_cases lib s r
  by_cases hq : queryGet "id" r.Query = ""
  · left; rw [hc.1 hq]
  · cases ha : lib.Atoi (queryGet "id" r.Query) with
    | none => left; rw [(hc.2 hq).1 ha]
    | some id =>
      by_cases hid : id ∈ ids s
      · right; rw [((hc.2 hq).2 id ha).2 hid]
      · left; rw [((hc.2 hq).2 id ha).1 hid]

theorem ServeHTTP_unchanged_or_ok (lib : Lib) (now : Time) (s : UserService) (r : Request) :
    (ServeHTTP lib now s r).2 = s ∨ (ServeHTTP lib now s r).1.Status = 200 ∨
      (ServeHTTP lib now s r).1.Status = 201 := by
  by_cases h1 : r.Method = "GET"
  · rw [ServeHTTP_get lib now s r h1]
    exact Or.inl (handleGetUsers_unchanged lib s r)
  · by_cases h2 : r.Method = "POST"
    · rw [ServeHTTP_post lib now s r h2]
      exact (handleCreateUser_unchanged_or_created lib now s r).imp id Or.inr
    · by_cases h3 : r.Method = "PUT"
      · rw [ServeHTTP_put lib now s r h3]
        exact (handleUpdateUser_unchanged_or_ok lib s r).imp id Or.inl
      · by_cases h4 : r.Method = "DELETE"
        · rw [ServeHTTP_delete lib now s r h4]
          exact (handleDeactivateUser_unchanged_or_ok lib s r).imp id Or.inl
        · rw [ServeHTTP_other lib now s r h1 h2 h3 h4]
          exact Or.inl rfl

/-- C17. No partial success.  A request answered 400, 404 or 405, by
`ServeHTTP` or by any of the four handlers called on it, leaves the service
(every record and `nextID`) exactly as it was; and so does an `UpdateUser` or
`DeactivateUser` call that returns the not-found error. -/
theorem error_leaves_service_unchanged (lib : Lib) (now : Time) (s : UserService)
    (r : Request) :
    (((ServeHTTP lib now s r).1.Status = 400 ∨ (ServeHTTP lib now s r).1.Status = 404 ∨
          (ServeHTTP lib now s r).1.Status = 405) → (ServeHTTP lib now s r).2 = s) ∧
      (((handleGetUsers lib s r).1.Status = 400 ∨ (handleGetUsers lib s r).1.Status = 404 ∨
          (handleGetUsers lib s r).1.Status = 405) → (handleGetUsers lib s r).2 = s) ∧
      (((handleCreateUser lib now s r).1.Status = 400 ∨
          (handleCreateUser lib now s r).1.Status = 404 ∨
          (handleCreateUser lib now s r).1.Status = 405) →
        (handleCreateUser lib now s r).2 = s) ∧
      (((handleUpdateUser lib s r).1.Status = 400 ∨ (handleUpdateUser lib s r).1.Status = 404 ∨
          (handleUpdateUser lib s r).1.Status = 405) → (handleUpdateUser lib s r).2 = s) ∧
      (((handleDeactivateUser lib s r).1.Status = 400 ∨
          (handleDeactivateUser lib s r).1.Status = 404 ∨
          (handleDeactivateUser lib s r).1.Status = 405) →
        (handleDeactivateUser lib s r).2 = s) ∧
      (∀ id n e, (UpdateUser s id n e).1 = some (notFound id) → (UpdateUser s id n e).2 = s) ∧
      (∀ id, (DeactivateUser s id).1 = some (notFound id) → (DeactivateUser s id).2 = s) := by
  refine ⟨?_, ?_, ?_, ?_, ?_, ?_, ?_⟩
  · intro h
    rcases ServeHTTP_unchanged_or_ok lib now s r with h' | h' | h'
    · exact h'
    · rw [h'] at h; omega
    · rw [h'] at h; omega
  · intro _
    exact handleGetUsers_unchanged lib s r
  · intro h
    rcases handleCreateUser_unchanged_or_created lib now s r with h' | h'
    · exact h'
    · rw [h'] at h; omega
  · intro h
    rcases handleUpdateUser_unchanged_or_ok lib s r with h' | h'
    · exact h'
    · rw [h'] at h; omega
  · intro h
    rcases handleDeactivateUser_unchanged_or_ok lib s r with h' | h'
    · exact h'
    · rw [h'] at h; omega
  · intro id n e h
    exact UpdateUser_unchanged_of_error s id n e (by rw [h]; simp)
  · intro id h
    exact DeactivateUser_unchanged_of_error s id (by rw [h]; simp)

/-- Four failing requests and two failing calls on `sampleService`. -/
theorem error_leaves_service_unchanged_witness :
    (ServeHTTP sampleLib 300 sampleService
        { Method := "POST", Query := [], Body := ",x" }).2 = sampleService ∧
      (ServeHTTP sampleLib 300 sampleService
        { Method := "PUT", Query := [("id", "99")], Body := "Robert,rob@x.com" }).2 =
        sampleService ∧
      (ServeHTTP sampleLib 300 sampleService
        { Method := "DELETE", Query := [("id", "x")], Body := "" }).2 = sampleService ∧
      (ServeHTTP sampleLib 300 sampleService
        { Method := "PATCH", Query := [("id", "1")], Body := "a,b" }).2 = sampleService ∧
      (UpdateUser sampleService 7 "n" "e").2 = sampleService ∧
      (DeactivateUser sampleService 7).2 = sampleService :=
  ⟨(error_leaves_service_unchanged sampleLib 300 sampleService
      { Method := "POST", Query := [], Body := ",x" }).1 (Or.inl (by decide)),
    (error_leaves_service_unchanged sampleLib 300 sampleService
      { Method := "PUT", Query := [("id", "99")], Body := "Robert,rob@x.com" }).1
      (Or.inr (Or.inl (by decide))),
    (error_leaves_service_unchanged sampleLib 300 sampleService
      { Method := "DELETE", Query := [("id", "x")], Body := "" }).1 (Or.inl (by decide)),
    (error_leaves_service_unchanged sampleLib 300 sampleService
      { Method := "PATCH", Query := [("id", "1")], Body := "a,b" }).1
      (Or.inr (Or.inr (by decide))),
    (error_leaves_service_unchanged sampleLib 300 sampleService
      { Method := "GET", Query := [], Body := "" }).2.2.2.2.2.1 7 "n" "e" (by decide),
    (error_leaves_service_unchanged sampleLib 300 sampleService
      { Method := "GET", Query := [], Body := "" }).2.2.2.2.2.2 7 (by decide)⟩

/-! ## Frames of the writes and of the reads -/

/-- C18. `UpdateUser` and `DeactivateUser` touch one record only: for every
state of the service (reachable or not) and every id, after the call `nextID`
and the number of records are the same, the ids are the same position by
position, every record whose `ID` differs from the id is the same in all
fields, and a position whose record differs holds the id with no earlier
position holding it. -/
theorem writes_touch_one_record (s : UserService) (id : Int) (n e : String) :
    TouchesOnly id s (UpdateUser s id n e).2 ∧ TouchesOnly id s (DeactivateUser s id).2 :=
  ⟨UpdateUser_touchesOnly s id n e, DeactivateUser_touchesOnly s id⟩

/-- Updating record 2 of `sampleService` leaves the records at positions 0 and 2
as they were and the counter at 4. -/
theorem writes_touch_one_record_witness :
    (UpdateUser sampleService 2 "Robert" "rob@x.com").2.nextID = 4 ∧
      (UpdateUser sampleService 2 "Robert" "rob@x.com").2.users[0]? =
        some { ID := 1, Name := "Alicia", Email := "a2@x.com", CreatedAt := 100,
               Active := true } ∧
      (DeactivateUser sampleService 2).2.users[2]? =
        some { ID := 3, Name := "Charlie Brown", Email := "charlie@example.com",
               CreatedAt := 250, Active := true } :=
  ⟨(writes_touch_one_record sampleService 2 "Robert" "rob@x.com").1.1,
    (writes_touch_one_record sampleService 2 "Robert" "rob@x.com").1.2.2.2.1 0
      { ID := 1, Name := "Alicia", Email := "a2@x.com", CreatedAt := 100, Active := true }
      (by decide) (by decide),
    (writes_touch_one_record sampleService 2 "Robert" "rob@x.com").2.2.2.2.1 2
      { ID := 3, Name := "Charlie Brown", Email := "charlie@example.com", CreatedAt := 250,
        Active := true } (by decide) (by decide)⟩

/-- C19. Reads are side-effect free: a `GetUser` or `GetAllUsers` call leaves the
service as it is, `handleGetUsers` returns the service it was given whatever
the request, and a `GET` request leaves the service as it is, so that the same
`GET` request served again right after receives the same response. -/
theorem reads_leave_service_unchanged (lib : Lib) (now now' : Time) (s : UserService)
    (r : Request) (id : Int) :
    (applyOp s (.get id)).1 = s ∧ (applyOp s .getAll).1 = s ∧
      (handleGetUsers lib s r).2 = s ∧
      (r.Method = "GET" →
        (ServeHTTP lib now s r).2 = s ∧
          ServeHTTP lib now' (ServeHTTP lib now s r).2 r = ServeHTTP lib now s r) := by
  refine ⟨rfl, rfl, handleGetUsers_unchanged lib s r, ?_⟩
  intro hm
  have h : (ServeHTTP lib now s r).2 = s := by
    rw [ServeHTTP_get lib now s r hm]; exact handleGetUsers_unchanged lib s r
  refine ⟨h, ?_⟩
  rw [h, ServeHTTP_get lib now' s r hm, ServeHTTP_get lib now s r hm]

/-- The request `GET /users?id=2` on `sampleService`, served twice. -/
theorem reads_leave_service_unchanged_witness :
    (ServeHTTP sampleLib 300 sampleService
        { Method := "GET", Query := [("id", "2")], Body := "" }).2 = sampleService ∧
      ServeHTTP sampleLib 301
          (ServeHTTP sampleLib 300 sampleService
            { Method := "GET", Query := [("id", "2")], Body := "" }).2
          { Method := "GET", Query := [("id", "2")], Body := "" } =
        ServeHTTP sampleLib 300 sampleService
          { Method := "GET", Query := [("id", "2")], Body := "" } :=
  (reads_leave_service_unchanged sampleLib 300 301 sampleService
    { Method := "GET", Query := [("id", "2")], Body := "" } 2).2.2.2 rfl

end UserRegistry
